import Mathlib

/-!
GeoPackage exporter: geometry codec

A shallow embedding of `src/exporter/geometry.go`, of the row loop of
`src/exporter/exporter.go` and of the geometry and property handling of
`src/exporter/export_geojson.go`, followed by the properties of the byte
layout, of the envelope scan, of the reprojection walk and of the error paths.

Conventions of the embedding:

* a Go `float64` is carried as its IEEE-754 bit pattern (`math.Float64bits` is
  then the projection `F64.bits`), comparisons are the IEEE-754 ones;
* a Go `interface{}` value is a `Value`, a `map[string]interface{}` is an
  association list read with `List.lookup`, written with `mapSet` and
  `mapDelete`;
* a Go `[]byte` is a `List Nat` of numbers below 256;
* a Go `(result, error)` return is an `Except String _`; `toFloat64`, whose
  callers sometimes drop the error, returns the pair itself; a function that
  changes its argument in place returns the argument after the call;
* language and library conversions that the repository calls but does not
  define (`float64(int)`, `json.Number.Float64`, `json.Unmarshal`) are fields of
  `GoRuntime`, the float64 arithmetic of the projection is a `FloatOps`; every
  definition that needs them takes them as a parameter.
-/

namespace GisExporter

/-! ## Doubles -/

/-- A Go `float64`, as the 64 bits that `math.Float64bits` returns. -/
structure F64 where
  bits : Nat
  isLt : bits < 2 ^ 64
  deriving DecidableEq

namespace F64

/-- Inverse of `math.Float64bits`: `math.Float64frombits` on a `uint64`. -/
def ofBits (n : Nat) : F64 := ⟨n % 2 ^ 64, Nat.mod_lt _ (by decide)⟩

/-- Not-a-number: exponent field all ones and a non-zero fraction. -/
def isNaN (x : F64) : Bool := (x.bits / 2 ^ 52) % 2 ^ 11 == 2047 && x.bits % 2 ^ 52 != 0

/-- Order key of a double that is not NaN: sign-magnitude read as an integer.
Both zeros have key 0, and the key is strictly increasing in the real value
(infinities included). -/
def key (x : F64) : Int :=
  if x.bits < 2 ^ 63 then (x.bits : Int) else -((x.bits - 2 ^ 63 : Nat) : Int)

/-- Go `x < y` on float64: false as soon as one side is NaN. -/
def lt (x y : F64) : Bool := !x.isNaN && !y.isNaN && decide (x.key < y.key)

/-- Go `x > y` on float64. -/
def gt (x y : F64) : Bool := lt y x

/-- Go `x <= y` on float64: false as soon as one side is NaN. -/
def le (x y : F64) : Bool := !x.isNaN && !y.isNaN && decide (x.key ≤ y.key)

/-- The literal `0`. -/
def zero : F64 := ⟨0, by decide⟩

/-- The literal `1e10` (exactly representable: 0x4202A05F20000000). -/
def pos1e10 : F64 := ⟨4756540486875873280, by decide⟩

/-- The literal `-1e10` (0xC202A05F20000000). -/
def neg1e10 : F64 := ⟨13979912523730649088, by decide⟩

end F64

/-! ## Dynamic values -/

/-- A Go `interface{}` value, as far as the exporter tells values apart:
the JSON shapes, the numeric types that `toFloat64` has a case for, and the
typed slices `[]float64` to `[][][][]float64` that `convertGeometryToWGS84`
stores. -/
inductive Value where
  | null
  | bool (b : Bool)
  | str (s : String)
  | float64 (x : F64)
  | float32 (bits : Nat)
  | int (n : Int)
  | int64 (n : Int)
  | number (s : String)
  | arr (xs : List Value)
  | obj (kvs : List (String × Value))
  | float64s (xs : List F64)
  | float64ss (xs : List (List F64))
  | float64sss (xs : List (List (List F64)))
  | float64ssss (xs : List (List (List (List F64))))

/-- Conversions of the Go language and standard library that the exporter
calls: `float64(v)` for a float32 (given by its bits), an int and an int64,
`json.Number.Float64` and `json.Unmarshal` into a `map[string]interface{}`. -/
structure GoRuntime where
  float32ToFloat64 : Nat → F64
  intToFloat64 : Int → F64
  int64ToFloat64 : Int → F64
  numberFloat64 : String → F64 × Option String
  jsonUnmarshal : String → Except String (List (String × Value))

/-- What `%T` prints for a value. -/
def Value.typeName : Value → String
  | .null => "<nil>"
  | .bool _ => "bool"
  | .str _ => "string"
  | .float64 _ => "float64"
  | .float32 _ => "float32"
  | .int _ => "int"
  | .int64 _ => "int64"
  | .number _ => "json.Number"
  | .arr _ => "[]interface \x7b\x7d"
  | .obj _ => "map[string]interface \x7b\x7d"
  | .float64s _ => "[]float64"
  | .float64ss _ => "[][]float64"
  | .float64sss _ => "[][][]float64"
  | .float64ssss _ => "[][][][]float64"

/-- Source `toFloat64` (geometry.go:249): the float64 and the error, as Go
returns them. -/
def toFloat64 (rt : GoRuntime) (v : Value) : F64 × Option String :=
  match v with
  | .float64 val => (val, none)
  | .float32 val => (rt.float32ToFloat64 val, none)
  | .int val => (rt.intToFloat64 val, none)
  | .int64 val => (rt.int64ToFloat64 val, none)
  | .number val => rt.numberFloat64 val
  | v => (F64.zero, some ("cannot convert " ++ v.typeName ++ " to float64"))

/-! ## Byte strings -/

/-- A Go `[]byte`. -/
abbrev Bytes := List Nat

/-- Go `uint32(n)` of a length. -/
def toUint32 (n : Nat) : Nat := n % 2 ^ 32

/-- Library `binary.LittleEndian.PutUint32`: the four bytes written. -/
def putUint32 (v : Nat) : Bytes :=
  [v % 256, v / 2 ^ 8 % 256, v / 2 ^ 16 % 256, v / 2 ^ 24 % 256]

/-- Library `binary.LittleEndian.PutUint64`: the eight bytes written. -/
def putUint64 (v : Nat) : Bytes :=
  [v % 256, v / 2 ^ 8 % 256, v / 2 ^ 16 % 256, v / 2 ^ 24 % 256,
   v / 2 ^ 32 % 256, v / 2 ^ 40 % 256, v / 2 ^ 48 % 256, v / 2 ^ 56 % 256]

/-- Library `binary.LittleEndian.Uint32`/`Uint64`: the number a little-endian
byte string stands for. -/
def leDecode : Bytes → Nat
  | [] => 0
  | b :: rest => b + 256 * leDecode rest

/-- The byte range `b[i:j]`. -/
def slice (b : Bytes) (i j : Nat) : Bytes := (b.drop i).take (j - i)

/-- Decoding eight little-endian bytes as a double (`math.Float64frombits` of
`binary.LittleEndian.Uint64`). -/
def decodeF64 (b : Bytes) : F64 := F64.ofBits (leDecode b)

/-! ## WKB encoders (geometry.go) -/

/-- The 16 bytes `pointBuf` of a point: x then y, little-endian doubles
(geometry.go:114-116 and 178-180). -/
def pointBuf (x y : F64) : Bytes := putUint64 x.bits ++ putUint64 y.bits

/-- Inner loop of `polygonToWKB` (geometry.go:99-118): appends the points of
one ring to `ringBuf`, stops at the first point that is not acceptable. -/
def ringLoop (rt : GoRuntime) : List Value → Bytes → Except String Bytes
  | [], ringBuf => .ok ringBuf
  | point :: rest, ringBuf =>
    match point with
    | .arr (p0 :: p1 :: _) =>
      match toFloat64 rt p0 with
      | (_, some err) => .error ("invalid x coordinate: " ++ err)
      | (x, none) =>
        match toFloat64 rt p1 with
        | (_, some err) => .error ("invalid y coordinate: " ++ err)
        | (y, none) => ringLoop rt rest (ringBuf ++ pointBuf x y)
    | _ => .error "invalid point coordinates"

/-- Outer loop of `polygonToWKB` (geometry.go:89-121): appends each ring,
point count first, to `buf`. -/
def ringsLoop (rt : GoRuntime) : List Value → Bytes → Except String Bytes
  | [], buf => .ok buf
  | ring :: rest, buf =>
    match ring with
    | .arr ringCoords =>
      match ringLoop rt ringCoords (putUint32 (toUint32 ringCoords.length)) with
      | .error e => .error e
      | .ok ringBuf => ringsLoop rt rest (buf ++ ringBuf)
    | _ => .error "invalid ring coordinates"

/-- Source `polygonToWKB` (geometry.go:74). -/
def polygonToWKB (rt : GoRuntime) (coords : Value) : Except String Bytes :=
  match coords with
  | .arr coordsArray =>
    if coordsArray.length = 0 then .error "invalid polygon coordinates"
    else
      ringsLoop rt coordsArray ([1] ++ putUint32 3 ++ putUint32 (toUint32 coordsArray.length))
  | _ => .error "invalid polygon coordinates"

/-- Source `pointToWKB` (geometry.go:126). -/
def pointToWKB (rt : GoRuntime) (coords : Value) : Except String Bytes :=
  match coords with
  | .arr (c0 :: c1 :: _) =>
    match toFloat64 rt c0 with
    | (_, some err) => .error ("invalid x coordinate: " ++ err)
    | (x, none) =>
      match toFloat64 rt c1 with
      | (_, some err) => .error ("invalid y coordinate: " ++ err)
      | (y, none) => .ok ([1] ++ putUint32 1 ++ putUint64 x.bits ++ putUint64 y.bits)
  | _ => .error "invalid point coordinates"

/-- Loop of `lineStringToWKB` (geometry.go:163-182). -/
def lineLoop (rt : GoRuntime) : List Value → Bytes → Except String Bytes
  | [], buf => .ok buf
  | point :: rest, buf =>
    match point with
    | .arr (p0 :: p1 :: _) =>
      match toFloat64 rt p0 with
      | (_, some err) => .error ("invalid x coordinate: " ++ err)
      | (x, none) =>
        match toFloat64 rt p1 with
        | (_, some err) => .error ("invalid y coordinate: " ++ err)
        | (y, none) => lineLoop rt rest (buf ++ pointBuf x y)
    | _ => .error "invalid point coordinates"

/-- Source `lineStringToWKB` (geometry.go:151). -/
def lineStringToWKB (rt : GoRuntime) (coords : Value) : Except String Bytes :=
  match coords with
  | .arr coordsArray =>
    lineLoop rt coordsArray ([1] ++ putUint32 2 ++ putUint32 (toUint32 coordsArray.length))
  | _ => .error "invalid linestring coordinates"

/-- Loop of `multiPolygonToWKB` (geometry.go:199-206): each polygon is encoded
by `polygonToWKB` and appended from byte 9 on (`polygonWKB[9:]`). -/
def polygonsLoop (rt : GoRuntime) : List Value → Bytes → Except String Bytes
  | [], buf => .ok buf
  | polygon :: rest, buf =>
    match polygonToWKB rt polygon with
    | .error e => .error e
    | .ok polygonWKB => polygonsLoop rt rest (buf ++ polygonWKB.drop 9)

/-- Source `multiPolygonToWKB` (geometry.go:187). -/
def multiPolygonToWKB (rt : GoRuntime) (coords : Value) : Except String Bytes :=
  match coords with
  | .arr coordsArray =>
    polygonsLoop rt coordsArray ([1] ++ putUint32 6 ++ putUint32 (toUint32 coordsArray.length))
  | _ => .error "invalid multipolygon coordinates"

/-! ## Envelope (geometry.go:211) -/

/-- The array `[4]float64` of `CalculateEnvelope`: indices 0 to 3 in order. -/
structure Envelope where
  minX : F64
  maxX : F64
  minY : F64
  maxY : F64
  deriving DecidableEq

/-- The four guarded assignments of geometry.go:223-234. -/
def Envelope.add (envelope : Envelope) (x y : F64) : Envelope :=
  let e0 := if F64.lt x envelope.minX then x else envelope.minX
  let e1 := if F64.gt x envelope.maxX then x else envelope.maxX
  let e2 := if F64.lt y envelope.minY then y else envelope.minY
  let e3 := if F64.gt y envelope.maxY then y else envelope.maxY
  ⟨e0, e1, e2, e3⟩

/-- The test of geometry.go:220-236 on one slice: fold its first two elements
into the envelope when both convert. -/
def Envelope.visit (rt : GoRuntime) (v : List Value) (envelope : Envelope) : Envelope :=
  match v with
  | v0 :: v1 :: _ =>
    match toFloat64 rt v0 with
    | (x, none) =>
      match toFloat64 rt v1 with
      | (y, none) => envelope.add x y
      | _ => envelope
    | _ => envelope
  | _ => envelope

mutual
/-- The closure `extractCoords` of `CalculateEnvelope`; the captured variable
`envelope` is passed in and returned. -/
def extractCoords (rt : GoRuntime) : Value → Envelope → Envelope
  | .arr v, envelope => extractCoordsItems rt v (Envelope.visit rt v envelope)
  | _, envelope => envelope
/-- The loop `for _, item := range v` of `extractCoords`. -/
def extractCoordsItems (rt : GoRuntime) : List Value → Envelope → Envelope
  | [], envelope => envelope
  | item :: rest, envelope => extractCoordsItems rt rest (extractCoords rt item envelope)
end

/-- The initial value of `envelope` (geometry.go:214). -/
def Envelope.sentinel : Envelope := ⟨F64.pos1e10, F64.neg1e10, F64.pos1e10, F64.neg1e10⟩

/-- Source `CalculateEnvelope` (geometry.go:212). -/
def CalculateEnvelope (rt : GoRuntime) (coords : Value) (_geomType : String) : Envelope :=
  extractCoords rt coords Envelope.sentinel

/-! ## GPKG blob (geometry.go:11) -/

/-- The 8 header bytes built at geometry.go:50-57. -/
def gpkgHeader : Bytes := [0x47, 0x00, 0x01] ++ putUint32 3857 ++ [0x00]

/-- The 32 bytes `envelopeBytes` of geometry.go:61-65. -/
def envelopeBytes (envelope : Envelope) : Bytes :=
  putUint64 envelope.minX.bits ++ putUint64 envelope.maxX.bits ++
    putUint64 envelope.minY.bits ++ putUint64 envelope.maxY.bits

/-- The type switch of geometry.go:33-44. -/
def encodeByType (rt : GoRuntime) (geomType : String) (coordinates : Value) :
    Except String Bytes :=
  if geomType = "Polygon" then polygonToWKB rt coordinates
  else if geomType = "Point" then pointToWKB rt coordinates
  else if geomType = "LineString" then lineStringToWKB rt coordinates
  else if geomType = "MultiPolygon" then multiPolygonToWKB rt coordinates
  else .error ("unsupported geometry type: " ++ geomType)

/-- Source `ConvertGeometryToGPKG` (geometry.go:11). -/
def ConvertGeometryToGPKG (rt : GoRuntime) (geometry : List (String × Value)) :
    Except String Bytes :=
  match geometry.lookup "type" with
  | some (.str geomType) =>
    match geometry.lookup "coordinates" with
    | none => .error "coordinates not found"
    | some coordinates =>
      match encodeByType rt geomType coordinates with
      | .error e => .error e
      | .ok wkb =>
        .ok (gpkgHeader ++ envelopeBytes (CalculateEnvelope rt coordinates geomType) ++ wkb)
  | _ => .error "geometry type not found"

/-! ## Row loop of the GeoPackage export (exporter.go) -/

/-- Source `extractGeometryFromJSON` (exporter.go:167). -/
def extractGeometryFromJSON (rt : GoRuntime) (dataStr : String) :
    Except String (List (String × Value)) :=
  match rt.jsonUnmarshal dataStr with
  | .error e => .error ("failed to parse JSON: " ++ e)
  | .ok data =>
    match data.lookup "data" with
    | some (.obj dataObj) =>
      match dataObj.lookup "features" with
      | some (.arr (feature0 :: _)) =>
        match feature0 with
        | .obj feature =>
          match feature.lookup "geometry" with
          | some (.obj geometry) => .ok geometry
          | _ => .error "no geometry in feature"
        | _ => .error "invalid feature structure"
      | _ => .error "no features in JSON"
    | _ => .error "no \x27data\x27 field in JSON"

/-- Source `CadastralObject` (models.go:37); a `sql.Null*` field is an
`Option`, the time of `UpdateDate` is given by its `2006-01-02` rendering. -/
structure CadastralObject where
  Code : Int
  QuarterCode : Int
  LoadStatus : String
  UpdateDate : Option String
  Data : String
  Area : Option Int
  CostValue : Option F64
  PermittedUseEstablishedByDoc : Option String
  RightType : Option String
  Status : Option String
  LandRecordType : Option String
  LandRecordSubtype : Option String
  LandRecordCategoryType : Option String

/-- One row of the destination table `cadastral_objects`: the attributes and
the geometry blob passed to `stmt.Exec` (exporter.go:117-131). -/
structure StoredRow where
  obj : CadastralObject
  geometry : Bytes

/-- The local variables of `ExportData` that the row loop updates
(exporter.go:50-55), and the destination table. -/
structure ExportState where
  count : Nat
  globalMinX : F64
  globalMinY : F64
  globalMaxX : F64
  globalMaxY : F64
  table : List StoredRow

/-- The state before the first row (exporter.go:50-55). -/
def ExportState.init : ExportState :=
  ⟨0, F64.pos1e10, F64.pos1e10, F64.neg1e10, F64.neg1e10, []⟩

/-- The envelope update of exporter.go:86-102. -/
def updateGlobal (rt : GoRuntime) (geometry : List (String × Value)) (st : ExportState) :
    ExportState :=
  match geometry.lookup "coordinates" with
  | some coordinates =>
    let geomType := match geometry.lookup "type" with
      | some (.str s) => s
      | _ => ""
    let envelope := CalculateEnvelope rt coordinates geomType
    { st with
      globalMinX := if F64.lt envelope.minX st.globalMinX then envelope.minX else st.globalMinX
      globalMaxX := if F64.gt envelope.maxX st.globalMaxX then envelope.maxX else st.globalMaxX
      globalMinY := if F64.lt envelope.minY st.globalMinY then envelope.minY else st.globalMinY
      globalMaxY := if F64.gt envelope.maxY st.globalMaxY then envelope.maxY else st.globalMaxY }
  | none => st

/-- The body of the loop `for rows.Next()` of `ExportData` (exporter.go:57-141).
The row is `none` when `rows.Scan` fails; `execOk` tells whether `stmt.Exec`
succeeds on the current table. Log lines are left out. -/
def exportRow (rt : GoRuntime) (execOk : List StoredRow → StoredRow → Bool)
    (st : ExportState) (row : Option CadastralObject) : ExportState :=
  match row with
  | none => st
  | some obj =>
    match extractGeometryFromJSON rt obj.Data with
    | .error _ => st
    | .ok geometry =>
      let st1 := updateGlobal rt geometry st
      match ConvertGeometryToGPKG rt geometry with
      | .error _ => st1
      | .ok gpkgGeometry =>
        if execOk st1.table ⟨obj, gpkgGeometry⟩ then
          { st1 with table := st1.table ++ [⟨obj, gpkgGeometry⟩], count := st1.count + 1 }
        else st1

/-- The whole loop of `ExportData` over the rows of the query. -/
def exportLoop (rt : GoRuntime) (execOk : List StoredRow → StoredRow → Bool)
    (rows : List (Option CadastralObject)) : ExportState :=
  rows.foldl (exportRow rt execOk) ExportState.init

/-! ## The data model of the specification, read off a dynamic value -/

/-- The types that `ConvertGeometryToGPKG` has an encoder for. -/
def supportedTypes : List String := ["Point", "LineString", "Polygon", "MultiPolygon"]

/-- A coordinate pair: a list of at least two elements whose first two are
numeric; the result is the pair of doubles. -/
def leafPair (rt : GoRuntime) (v : Value) : Option (F64 × F64) :=
  match v with
  | .arr (a :: b :: _) =>
    match toFloat64 rt a, toFloat64 rt b with
    | (x, none), (y, none) => some (x, y)
    | _, _ => none
  | _ => none

/-- A list of values all of which are coordinate pairs. -/
def asPoints (rt : GoRuntime) : List Value → Option (List (F64 × F64))
  | [] => some []
  | p :: rest =>
    match leafPair rt p, asPoints rt rest with
    | some q, some qs => some (q :: qs)
    | _, _ => none

/-- A ring: a list of coordinate pairs. -/
def asRing (rt : GoRuntime) : Value → Option (List (F64 × F64))
  | .arr pts => asPoints rt pts
  | _ => none

/-- A list of values all of which are rings. -/
def asRings (rt : GoRuntime) : List Value → Option (List (List (F64 × F64)))
  | [] => some []
  | r :: rest =>
    match asRing rt r, asRings rt rest with
    | some q, some qs => some (q :: qs)
    | _, _ => none

/-- Polygon coordinates: a list of rings. -/
def asPolygon (rt : GoRuntime) : Value → Option (List (List (F64 × F64)))
  | .arr rings => asRings rt rings
  | _ => none

/-- The payload of a list of points: 16 bytes each, x then y. -/
def wkbPoints : List (F64 × F64) → Bytes
  | [] => []
  | p :: rest => putUint64 p.1.bits ++ putUint64 p.2.bits ++ wkbPoints rest

/-- A ring on the wire: 4-byte point count, then the points. -/
def wkbRing (ring : List (F64 × F64)) : Bytes :=
  putUint32 (toUint32 ring.length) ++ wkbPoints ring

/-- The rings of a polygon on the wire, one after the other. -/
def wkbRings : List (List (F64 × F64)) → Bytes
  | [] => []
  | r :: rest => wkbRing r ++ wkbRings rest

/-- The WKB body of a polygon as the specification lays it out: byte-order
flag 1, type code 3, ring count, rings. -/
def wkbPolygon (rings : List (List (F64 × F64))) : Bytes :=
  [1] ++ putUint32 3 ++ putUint32 (toUint32 rings.length) ++ wkbRings rings

/-- The WKB body of a line string as the specification lays it out: flag 1,
type code 2, point count, points. -/
def wkbLineString (pts : List (F64 × F64)) : Bytes :=
  [1] ++ putUint32 2 ++ putUint32 (toUint32 pts.length) ++ wkbPoints pts

/-- Sum of the byte sizes of the rings: 4 + 16 * points each. -/
def ringsSize : List (List (F64 × F64)) → Nat
  | [] => 0
  | r :: rest => (4 + 16 * r.length) + ringsSize rest

/-- The sample runtime of the concrete examples below: their numbers are all
float64, so the numeric conversions are not reached. -/
def sampleRuntime : GoRuntime where
  float32ToFloat64 := fun _ => F64.zero
  intToFloat64 := fun _ => F64.zero
  int64ToFloat64 := fun _ => F64.zero
  numberFloat64 := fun _ => (F64.zero, some "strconv.ParseFloat: not modelled")
  jsonUnmarshal := fun _ => .error "json.Unmarshal: not modelled"

/-- The double `10`. -/
def f10 : F64 := ⟨4621819117588971520, by decide⟩

/-- A coordinate pair of two float64 values, as `json.Unmarshal` builds it. -/
def pt (x y : F64) : Value := .arr [.float64 x, .float64 y]

/-- Coordinates of the square of the end-to-end example of the specification:
`[[[0,0],[0,10],[10,10],[10,0],[0,0]]]`. -/
def squareCoords : Value :=
  .arr [.arr [pt F64.zero F64.zero, pt F64.zero f10, pt f10 f10, pt f10 F64.zero,
              pt F64.zero F64.zero]]

/-- The geometry object of the end-to-end example. -/
def squareGeometry : List (String × Value) :=
  [("type", .str "Polygon"), ("coordinates", squareCoords)]

/-- The bodies `ws`, each without its first `n` bytes, one after the other. -/
def concatDrop (n : Nat) : List Bytes → Bytes
  | [] => []
  | w :: rest => w.drop n ++ concatDrop n rest

/-- Sum over the bodies `ws` of their length minus `n`. -/
def sumLengthsMinus (n : Nat) : List Bytes → Nat
  | [] => 0
  | w :: rest => (w.length - n) + sumLengthsMinus n rest

/-- The five points of the square of the end-to-end example. -/
def squareRing : List (F64 × F64) :=
  [(F64.zero, F64.zero), (F64.zero, f10), (f10, f10), (f10, F64.zero), (F64.zero, F64.zero)]

/-- Polygon coordinates with one ring of one point, `[[[10,0]]]`. -/
def dotCoords : Value := .arr [.arr [pt f10 F64.zero]]

mutual
/-- All coordinate pairs of a tree: every list, at any depth, of at least two
elements whose first two are numeric, in the order of a depth-first walk. -/
def leafPairs (rt : GoRuntime) : Value → List (F64 × F64)
  | .arr v => (leafPair rt (.arr v)).toList ++ leafPairsItems rt v
  | _ => []
/-- The coordinate pairs of the trees of a list, in order. -/
def leafPairsItems (rt : GoRuntime) : List Value → List (F64 × F64)
  | [] => []
  | item :: rest => leafPairs rt item ++ leafPairsItems rt rest
end

/-- The smaller of two doubles (the first one when they compare equal). -/
def F64.min (a b : F64) : F64 := if F64.lt b a then b else a

/-- The larger of two doubles (the first one when they compare equal). -/
def F64.max (a b : F64) : F64 := if F64.lt a b then b else a

/-- The minimum of the non-empty list `x :: xs`. -/
def minimum (x : F64) (xs : List F64) : F64 := xs.foldl F64.min x

/-- The maximum of the non-empty list `x :: xs`. -/
def maximum (x : F64) (xs : List F64) : F64 := xs.foldl F64.max x

/-- The axis-aligned bounding box of a list of pairs as the specification
words it: (min of all x, max of all x, min of all y, max of all y); the
sentinel when there is no pair. -/
def exactBox : List (F64 × F64) → Envelope
  | [] => Envelope.sentinel
  | p :: ps =>
    ⟨minimum p.1 (ps.map Prod.fst), maximum p.1 (ps.map Prod.fst),
     minimum p.2 (ps.map Prod.snd), maximum p.2 (ps.map Prod.snd)⟩

/-- A double between -1e10 and 1e10, bounds included. -/
def inSentinelRange (x : F64) : Bool := F64.le F64.neg1e10 x && F64.le x F64.pos1e10

/-- The double `2e10` (0x4212A05F20000000). -/
def f2e10 : F64 := ⟨4761044086503243776, by decide⟩

/-- The elements of a list value, none for any other value. -/
def elements : Value → List Value
  | .arr xs => xs
  | _ => []

/-- The values found where a polygon holds its coordinate pairs: the elements
of the rings. -/
def ringsPositions : List Value → List Value
  | [] => []
  | ring :: rest => elements ring ++ ringsPositions rest

/-- The values found where the polygons of a list hold their coordinate pairs. -/
def polygonsPositions : List Value → List Value
  | [] => []
  | polygon :: rest => ringsPositions (elements polygon) ++ polygonsPositions rest

/-- The values at the positions where the data model puts a coordinate pair:
the coordinates themselves for a Point, the elements for a LineString, the
elements of the rings for a Polygon, the elements of the rings of the polygons
for a MultiPolygon. -/
def pairPositions (geomType : String) (coords : Value) : List Value :=
  if geomType = "Point" then [coords]
  else if geomType = "LineString" then elements coords
  else if geomType = "Polygon" then ringsPositions (elements coords)
  else if geomType = "MultiPolygon" then polygonsPositions (elements coords)
  else []

/-- A runtime whose `json.Unmarshal` returns the given document, for the
examples of the row loop. -/
def payloadRuntime (payload : List (String × Value)) : GoRuntime :=
  { sampleRuntime with jsonUnmarshal := fun _ => .ok payload }

/-- A document with one feature carrying the given geometry. -/
def featureDocument (geometry : List (String × Value)) : List (String × Value) :=
  [("data", .obj [("type", .str "FeatureCollection"),
    ("features", .arr [.obj [("type", .str "Feature"), ("geometry", .obj geometry)]])])]

/-- A geometry of the unsupported type MultiPoint. -/
def multiPointGeometry : List (String × Value) :=
  [("type", .str "MultiPoint"), ("coordinates", .arr [pt F64.zero F64.zero, pt f10 f10])]

/-- A source row with the given code and no optional attribute. -/
def sampleObject (code : Int) : CadastralObject :=
  ⟨code, 1, "SUCCESS", none, "...", none, none, none, none, none, none, none, none⟩

/-- A LineString whose second element has one component only: `[[0,0],[10]]`. -/
def brokenLine : List (String × Value) :=
  [("type", .str "LineString"),
   ("coordinates", .arr [pt F64.zero F64.zero, .arr [.float64 f10]])]

/-! ## GeoJSON export (export_geojson.go) -/

/-- Go `m[k] = v` on a `map[string]interface{}`. -/
def mapSet (k : String) (v : Value) : List (String × Value) → List (String × Value)
  | [] => [(k, v)]
  | (k1, v1) :: rest => if k1 = k then (k, v) :: rest else (k1, v1) :: mapSet k v rest

/-- Go `delete(m, k)`. -/
def mapDelete (k : String) (m : List (String × Value)) : List (String × Value) :=
  m.filter (fun kv => kv.1 != k)

/-- The float64 arithmetic that `webMercatorToWGS84` uses: division,
multiplication, `x*y - z` (which the language lets the compiler fuse into one
rounding), `math.Atan` and `math.Exp`. -/
structure FloatOps where
  div : F64 → F64 → F64
  mul : F64 → F64 → F64
  mulSub : F64 → F64 → F64 → F64
  atan : F64 → F64
  exp : F64 → F64

/-- The constant `20037508.34` as a float64 (0x41731BF84570A3D7). -/
def c20037508 : F64 := ⟨4716143987917890519, by decide⟩

/-- The constant `180.0` (0x4066800000000000). -/
def c180 : F64 := ⟨4640537203540230144, by decide⟩

/-- The constant `2.0` (0x4000000000000000). -/
def c2 : F64 := ⟨4611686018427387904, by decide⟩

/-- The constant `math.Pi` as a float64 (0x400921FB54442D18). -/
def cPi : F64 := ⟨4614256656552045848, by decide⟩

/-- The constant expression `180.0 / math.Pi`, evaluated exactly and rounded to
float64 (0x404CA5DC1A63C1F8). -/
def c180OverPi : F64 := ⟨4633260481411531256, by decide⟩

/-- The constant expression `math.Pi / 2.0` as a float64 (0x3FF921FB54442D18). -/
def cPiOver2 : F64 := ⟨4609753056924675352, by decide⟩

/-- Source `webMercatorToWGS84` (export_geojson.go:459): `(lon, lat)`. -/
def webMercatorToWGS84 (fo : FloatOps) (x y : F64) : F64 × F64 :=
  let lon := fo.mul (fo.div x c20037508) c180
  let lat := fo.mul (fo.div y c20037508) c180
  let lat := fo.mul c180OverPi
    (fo.mulSub c2 (fo.atan (fo.exp (fo.div (fo.mul lat cPi) c180))) cPiOver2)
  (lon, lat)

/-- The slice `[]float64{lon, lat}` built from a point whose length has been
checked (export_geojson.go:366-369 and its three copies): the errors of
`toFloat64` are dropped, its float64 result is used as it is. -/
def convertPair (rt : GoRuntime) (fo : FloatOps) (p0 p1 : Value) : List F64 :=
  let x := (toFloat64 rt p0).1
  let y := (toFloat64 rt p1).1
  let r := webMercatorToWGS84 fo x y
  [r.1, r.2]

/-- The point loops of `convertGeometryToWGS84` (export_geojson.go:377-386,
401-410, 433-442); `msg` is the error of the copy at hand. -/
def convertPoints (rt : GoRuntime) (fo : FloatOps) (msg : String) :
    List Value → Except String (List (List F64))
  | [] => .ok []
  | point :: rest =>
    match point with
    | .arr (p0 :: p1 :: _) =>
      match convertPoints rt fo msg rest with
      | .error e => .error e
      | .ok converted => .ok (convertPair rt fo p0 p1 :: converted)
    | _ => .error msg

/-- The ring loops of `convertGeometryToWGS84` (export_geojson.go:395-412,
427-444); `msgRing` and `msgPoint` are the errors of the copy at hand. -/
def convertRings (rt : GoRuntime) (fo : FloatOps) (msgRing msgPoint : String) :
    List Value → Except String (List (List (List F64)))
  | [] => .ok []
  | ring :: rest =>
    match ring with
    | .arr ringArray =>
      match convertPoints rt fo msgPoint ringArray with
      | .error e => .error e
      | .ok convertedRing =>
        match convertRings rt fo msgRing msgPoint rest with
        | .error e => .error e
        | .ok converted => .ok (convertedRing :: converted)
    | _ => .error msgRing

/-- The polygon loop of `convertGeometryToWGS84` (export_geojson.go:421-446). -/
def convertPolygons (rt : GoRuntime) (fo : FloatOps) :
    List Value → Except String (List (List (List (List F64))))
  | [] => .ok []
  | polygon :: rest =>
    match polygon with
    | .arr ringsArray =>
      match convertRings rt fo "invalid ring in multipolygon" "invalid point in multipolygon"
          ringsArray with
      | .error e => .error e
      | .ok convertedPoly =>
        match convertPolygons rt fo rest with
        | .error e => .error e
        | .ok converted => .ok (convertedPoly :: converted)
    | _ => .error "invalid polygon in multipolygon"

/-- The type switch of `convertGeometryToWGS84` (export_geojson.go:360-451):
the value that the case assigns to `geom["coordinates"]`, or the error that it
returns before any assignment. -/
def convertCoordinates (rt : GoRuntime) (fo : FloatOps) (geomType : String) (coords : Value) :
    Except String Value :=
  if geomType = "Point" then
    match coords with
    | .arr (c0 :: c1 :: _) => .ok (.float64s (convertPair rt fo c0 c1))
    | _ => .error "invalid point coordinates"
  else if geomType = "LineString" then
    match coords with
    | .arr coordsArray =>
      match convertPoints rt fo "invalid point in linestring" coordsArray with
      | .error e => .error e
      | .ok converted => .ok (.float64ss converted)
    | _ => .error "invalid linestring coordinates"
  else if geomType = "Polygon" then
    match coords with
    | .arr ringsArray =>
      match convertRings rt fo "invalid ring in polygon" "invalid point in ring" ringsArray with
      | .error e => .error e
      | .ok converted => .ok (.float64sss converted)
    | _ => .error "invalid polygon coordinates"
  else if geomType = "MultiPolygon" then
    match coords with
    | .arr multiPolyArray =>
      match convertPolygons rt fo multiPolyArray with
      | .error e => .error e
      | .ok converted => .ok (.float64ssss converted)
    | _ => .error "invalid multipolygon coordinates"
  else .error ("unsupported geometry type: " ++ geomType)

/-- Source `convertGeometryToWGS84` (export_geojson.go:347). The function
changes the map it is given in place: the result is the value of the argument
after the call, and the error returned (`none` for `nil`). -/
def convertGeometryToWGS84 (rt : GoRuntime) (fo : FloatOps) (geometry : Value) :
    Value × Option String :=
  match geometry with
  | .obj geom =>
    match geom.lookup "coordinates" with
    | none => (geometry, some "no coordinates in geometry")
    | some coords =>
      let geomType := match geom.lookup "type" with
        | some (.str s) => s
        | _ => ""
      match convertCoordinates rt fo geomType coords with
      | .error e => (geometry, some e)
      | .ok converted => (.obj (mapDelete "crs" (mapSet "coordinates" converted geom)), none)
  | _ => (geometry, some "geometry is not a map")

/-- Source `getNullableInt64` (export_geojson.go:325). -/
def getNullableInt64 (n : Option Int) : Value :=
  match n with
  | some v => .int64 v
  | none => .null

/-- Source `getNullableFloat64` (export_geojson.go:332). -/
def getNullableFloat64 (n : Option F64) : Value :=
  match n with
  | some v => .float64 v
  | none => .null

/-- Source `getNullableString` (export_geojson.go:339). -/
def getNullableString (n : Option String) : Value :=
  match n with
  | some v => .str v
  | none => .null

/-- The map literal `properties` of export_geojson.go:153-165; the scanned
columns of the row are the fields of `obj`. -/
def baseProperties (obj : CadastralObject) : List (String × Value) :=
  [("code", .int obj.Code),
   ("quarter_code", .int obj.QuarterCode),
   ("load_status", .str obj.LoadStatus),
   ("area", getNullableInt64 obj.Area),
   ("cost_value", getNullableFloat64 obj.CostValue),
   ("permitted_use_established_by_document", getNullableString obj.PermittedUseEstablishedByDoc),
   ("right_type", getNullableString obj.RightType),
   ("status", getNullableString obj.Status),
   ("land_record_type", getNullableString obj.LandRecordType),
   ("land_record_subtype", getNullableString obj.LandRecordSubtype),
   ("land_record_category_type", getNullableString obj.LandRecordCategoryType)]

/-- The map `properties` after export_geojson.go:167-169: `update_date` is set
when the date of the row is valid. -/
def rowProperties (obj : CadastralObject) : List (String × Value) :=
  match obj.UpdateDate with
  | some d => mapSet "update_date" (.str d) (baseProperties obj)
  | none => baseProperties obj

/-- The loop `for k, v := range existingProps` of export_geojson.go:173-177. -/
def mergeExisting : List (String × Value) → List (String × Value) → List (String × Value)
  | [], properties => properties
  | (k, v) :: rest, properties =>
    mergeExisting rest (if (properties.lookup k).isSome then properties else mapSet k v properties)

/-- The map assigned to `feature["properties"]` (export_geojson.go:152-180). -/
def featureProperties (obj : CadastralObject) (feature : List (String × Value)) :
    List (String × Value) :=
  match feature.lookup "properties" with
  | some (.obj existingProps) => mergeExisting existingProps (rowProperties obj)
  | _ => rowProperties obj

/-- The body of the loop of `exportToGeoJSON` from the parsing of the row to
`feature["properties"] = properties` (export_geojson.go:118-180): the feature
that is then appended to the output, or the reason why the row is skipped.
The geometry map is changed in place by `convertGeometryToWGS84`, which the
feature sees under its key `geometry`. -/
def geoJSONFeature (rt : GoRuntime) (fo : FloatOps) (obj : CadastralObject) :
    Except String (List (String × Value)) :=
  match rt.jsonUnmarshal obj.Data with
  | .error e => .error ("Failed to parse JSON: " ++ e)
  | .ok data =>
    match data.lookup "data" with
    | some (.obj dataObj) =>
      match dataObj.lookup "features" with
      | some (.arr (feature0 :: _)) =>
        match feature0 with
        | .obj feature =>
          match convertGeometryToWGS84 rt fo ((feature.lookup "geometry").getD .null) with
          | (_, some e) => .error ("Failed to convert geometry: " ++ e)
          | (geometry, none) =>
            let feature1 := mapSet "geometry" geometry feature
            .ok (mapSet "properties" (.obj (featureProperties obj feature1)) feature1)
        | _ => .error "Invalid feature structure"
      | _ => .error "No features in JSON"
    | _ => .error "No \x27data\x27 field in JSON"

/-- The characters of `invalidChars` (export_geojson.go:311), by code point:
slash, backslash, colon, asterisk, question mark, double quote, less-than,
greater-than, vertical bar, space. -/
def invalidChars : List Char :=
  [Char.ofNat 47, Char.ofNat 92, Char.ofNat 58, Char.ofNat 42, Char.ofNat 63, Char.ofNat 34,
   Char.ofNat 60, Char.ofNat 62, Char.ofNat 124, Char.ofNat 32]

/-- The underscore. -/
def underscore : Char := Char.ofNat 95

/-- Library `strings.ReplaceAll(s, old, "_")` for a one-character `old`. -/
def replaceAll (s : List Char) (old : Char) : List Char :=
  s.map (fun c => if c = old then underscore else c)

/-- Library `unicode.IsSpace`. -/
def isSpace (c : Char) : Bool :=
  let n := c.toNat
  (9 ≤ n && n ≤ 13) || n == 32 || n == 0x85 || n == 0xA0 || n == 0x1680 ||
    (0x2000 ≤ n && n ≤ 0x200A) || n == 0x2028 || n == 0x2029 || n == 0x202F ||
    n == 0x205F || n == 0x3000

/-- Library `strings.TrimSpace`. -/
def trimSpace (s : List Char) : List Char :=
  ((s.dropWhile isSpace).reverse.dropWhile isSpace).reverse

/-- Source `sanitizeFilename` (export_geojson.go:309). -/
def sanitizeFilename (name : String) : String :=
  let result := invalidChars.foldl replaceAll name.data
  let result := trimSpace result
  if result = [] then "unknown" else String.mk result

/-- The columns `min_x`, `min_y`, `max_x`, `max_y` of the row of
`gpkg_contents`. -/
structure ContentsEnvelope where
  min_x : F64
  min_y : F64
  max_x : F64
  max_y : F64
  deriving DecidableEq

/-- Source `updateContentsEnvelope` (exporter.go:156): the values that the
UPDATE statement writes. -/
def updateContentsEnvelope (minX minY maxX maxY : F64) : ContentsEnvelope :=
  ⟨minX, minY, maxX, maxY⟩

/-- Source `ExportData` (exporter.go:11) from the loop on: the final state of
the loop and the envelope written to `gpkg_contents`, `none` when no row was
stored (exporter.go:146) and the row of `gpkg_contents` is left as it is. -/
def ExportData (rt : GoRuntime) (execOk : List StoredRow → StoredRow → Bool)
    (rows : List (Option CadastralObject)) : ExportState × Option ContentsEnvelope :=
  let st := exportLoop rt execOk rows
  (st, if st.count > 0 then
      some (updateContentsEnvelope st.globalMinX st.globalMinY st.globalMaxX st.globalMaxY)
    else none)

/-- A Polygon whose single ring has no point: coordinates `[[]]`. -/
def emptyRingGeometry : List (String × Value) :=
  [("type", .str "Polygon"), ("coordinates", .arr [.arr []])]

/-- A MultiPolygon without polygon: coordinates `[]`. -/
def emptyMultiPolygonGeometry : List (String × Value) :=
  [("type", .str "MultiPolygon"), ("coordinates", .arr [])]

/-- A Polygon without ring: coordinates `[]`. -/
def emptyPolygonGeometry : List (String × Value) :=
  [("type", .str "Polygon"), ("coordinates", .arr [])]

/-- A MultiPolygon made of the square and of a polygon without ring. -/
def holedMultiPolygonGeometry : List (String × Value) :=
  [("type", .str "MultiPolygon"), ("coordinates", .arr [squareCoords, .arr []])]

/-- A list of values all of which are polygon coordinates. -/
def asPolygons (rt : GoRuntime) : List Value → Option (List (List (List (F64 × F64))))
  | [] => some []
  | p :: rest =>
    match asPolygon rt p, asPolygons rt rest with
    | some q, some qs => some (q :: qs)
    | _, _ => none

/-- The projection `[lon, lat]` of the coordinate pair (x, y). -/
def projectPair (fo : FloatOps) (p : F64 × F64) : List F64 :=
  [(webMercatorToWGS84 fo p.1 p.2).1, (webMercatorToWGS84 fo p.1 p.2).2]

/-- The coordinates of a well-formed geometry of the given type, with the same
nesting (same polygons, rings and points, in the same order) and every
coordinate pair replaced by its projection; `none` when the coordinates are
not well-formed for the type or the type is not supported. -/
def projectedCoordinates (rt : GoRuntime) (fo : FloatOps) (geomType : String)
    (coords : Value) : Option Value :=
  if geomType = "Point" then
    (leafPair rt coords).map (fun p => .float64s (projectPair fo p))
  else if geomType = "LineString" then
    (asRing rt coords).map (fun ps => .float64ss (ps.map (projectPair fo)))
  else if geomType = "Polygon" then
    (asPolygon rt coords).map (fun rs => .float64sss (rs.map (fun r => r.map (projectPair fo))))
  else if geomType = "MultiPolygon" then
    match coords with
    | .arr polys =>
      (asPolygons rt polys).map (fun pss =>
        .float64ssss (pss.map (fun rs => rs.map (fun r => r.map (projectPair fo)))))
    | _ => none
  else none

/-- Float operations for the concrete examples below, none of which depends on
what the arithmetic returns. -/
def sampleFloatOps : FloatOps where
  div := fun x _ => x
  mul := fun x _ => x
  mulSub := fun x _ _ => x
  atan := fun x => x
  exp := fun x => x

/-- The square with an embedded CRS marker and a further key. -/
def crsSquareGeometry : List (String × Value) :=
  [("type", .str "Polygon"),
   ("crs", .obj [("type", .str "name"), ("properties", .obj [("name", .str "EPSG:3857")])]),
   ("coordinates", squareCoords),
   ("note", .str "parcel")]

/-- The header of a GeoPackage binary geometry as the GeoPackage standard lays
it out: the magic bytes 0x47 0x50, the version byte 0, the flags byte whose
bit 0 is 1 for little-endian and whose bits 1 to 3 hold the envelope indicator
1 for the 32-byte envelope [minX, maxX, minY, maxY], and the srs_id in bytes 4
to 7. -/
def standardGpkgHeader (srsId : Nat) (blob : Bytes) : Bool :=
  slice blob 0 2 == [0x47, 0x50] && slice blob 2 3 == [0x00] &&
    blob.getD 3 0 % 2 == 1 && blob.getD 3 0 / 2 % 8 == 1 &&
    leDecode (slice blob 4 8) == srsId

/-- The first of two optional values that is present. -/
def firstSome (a b : Option Value) : Option Value :=
  match a with
  | some v => some v
  | none => b

/-- The properties that a feature has before the export: the object under its
key `properties`, no property when that key is absent or not an object. -/
def existingProperties (feature : List (String × Value)) : List (String × Value) :=
  match feature.lookup "properties" with
  | some (.obj existingProps) => existingProps
  | _ => []

/-- The keys of the map literal of export_geojson.go:153-165. -/
def baseKeys : List String :=
  ["code", "quarter_code", "load_status", "area", "cost_value",
   "permitted_use_established_by_document", "right_type", "status", "land_record_type",
   "land_record_subtype", "land_record_category_type"]

/-- A feature whose properties hold a key of the derived set and another key. -/
def taggedFeature : List (String × Value) :=
  [("type", .str "Feature"),
   ("properties", .obj [("status", .str "old"), ("label", .str "A-1")]),
   ("geometry", .obj squareGeometry)]

/-- A source row with an update date and a status. -/
def datedObject : CadastralObject :=
  ⟨7, 1, "SUCCESS", some "2024-05-17", "row", none, none, none, none, some "active", none, none,
    none⟩

/-- The double `20` (0x4034000000000000). -/
def f20 : F64 := ⟨4626322717216342016, by decide⟩

/-- A geometry of the unsupported type MultiPoint, at (20, 20). -/
def farMultiPointGeometry : List (String × Value) :=
  [("type", .str "MultiPoint"), ("coordinates", .arr [pt f20 f20])]

/-- A source row with the given code and data text, no optional attribute. -/
def rowObject (code : Int) (data : String) : CadastralObject :=
  ⟨code, 1, "SUCCESS", none, data, none, none, none, none, none, none, none, none⟩

/-- A runtime whose `json.Unmarshal` reads the text `square` as a document
holding the square and any other text as a document holding the MultiPoint at
(20, 20). -/
def twoRowRuntime : GoRuntime :=
  { sampleRuntime with
    jsonUnmarshal := fun s =>
      if s = "square" then .ok (featureDocument squareGeometry)
      else .ok (featureDocument farMultiPointGeometry) }

/-- One character of a file name, sanitized: an underscore for each of the ten
characters of `invalidChars`, the character itself otherwise. -/
def sanitizeChar (c : Char) : Char := if c ∈ invalidChars then underscore else c

/-- A Point whose first component is a string: `["a", 0]`. -/
def textPointGeometry : List (String × Value) :=
  [("type", .str "Point"), ("coordinates", .arr [.str "a", .float64 F64.zero])]

/-- The LineString `[[0,0],[10]]` with an embedded CRS marker. -/
def crsBrokenLine : List (String × Value) :=
  [("type", .str "LineString"),
   ("crs", .obj [("type", .str "name")]),
   ("coordinates", .arr [pt F64.zero F64.zero, .arr [.float64 f10]])]

/-- The first of three rings of one point each, for the MultiPolygon examples. -/
def ringA : Value := .arr [pt F64.zero F64.zero]

/-- The second ring of the MultiPolygon examples. -/
def ringB : Value := .arr [pt f10 F64.zero]

/-- The third ring of the MultiPolygon examples. -/
def ringC : Value := .arr [pt f10 f10]

/-- A MultiPolygon whose single polygon has a single ring without point:
coordinates `[[[]]]`. -/
def emptyRingMultiPolygonGeometry : List (String × Value) :=
  [("type", .str "MultiPolygon"), ("coordinates", .arr [.arr [.arr []]])]

/-- A Polygon made of a ring without point and of the ring of the square. -/
def emptyRingSquareGeometry : List (String × Value) :=
  [("type", .str "Polygon"),
   ("coordinates", .arr [.arr [],
     .arr [pt F64.zero F64.zero, pt F64.zero f10, pt f10 f10, pt f10 F64.zero,
       pt F64.zero F64.zero]])]

theorem leDecode_putUint32 (v : Nat) (h : v < 2 ^ 32) : leDecode (putUint32 v) = v := by
  simp only [putUint32, leDecode]
  norm_num at h ⊢
  omega

theorem leDecode_putUint64 (v : Nat) (h : v < 2 ^ 64) : leDecode (putUint64 v) = v := by
  simp only [putUint64, leDecode]
  norm_num at h ⊢
  omega

theorem decodeF64_putUint64 (x : F64) : decodeF64 (putUint64 x.bits) = x := by
  cases x with
  | mk b hb =>
    simp only [decodeF64, F64.ofBits, leDecode_putUint64 b hb]
    congr
    exact Nat.mod_eq_of_lt hb

theorem length_putUint32 (v : Nat) : (putUint32 v).length = 4 := rfl

theorem length_putUint64 (v : Nat) : (putUint64 v).length = 8 := rfl

theorem slice_envelope (e : Envelope) (wkb : Bytes) :
    decodeF64 (slice (gpkgHeader ++ envelopeBytes e ++ wkb) 8 16) = e.minX ∧
    decodeF64 (slice (gpkgHeader ++ envelopeBytes e ++ wkb) 16 24) = e.maxX ∧
    decodeF64 (slice (gpkgHeader ++ envelopeBytes e ++ wkb) 24 32) = e.minY ∧
    decodeF64 (slice (gpkgHeader ++ envelopeBytes e ++ wkb) 32 40) = e.maxY := by
  refine ⟨?_, ?_, ?_, ?_⟩
  · rw [← decodeF64_putUint64 e.minX]; rfl
  · rw [← decodeF64_putUint64 e.maxX]; rfl
  · rw [← decodeF64_putUint64 e.minY]; rfl
  · rw [← decodeF64_putUint64 e.maxY]; rfl

theorem encodeByType_ok (rt : GoRuntime) (geomType : String) (coordinates : Value)
    (wkb : Bytes) (h : encodeByType rt geomType coordinates = .ok wkb) :
    (geomType = "Polygon" ∧ polygonToWKB rt coordinates = .ok wkb) ∨
    (geomType = "Point" ∧ pointToWKB rt coordinates = .ok wkb) ∨
    (geomType = "LineString" ∧ lineStringToWKB rt coordinates = .ok wkb) ∨
    (geomType = "MultiPolygon" ∧ multiPolygonToWKB rt coordinates = .ok wkb) := by
  unfold encodeByType at h
  split_ifs at h with h1 h2 h3 h4
  · exact Or.inl ⟨h1, h⟩
  · exact Or.inr (Or.inl ⟨h2, h⟩)
  · exact Or.inr (Or.inr (Or.inl ⟨h3, h⟩))
  · exact Or.inr (Or.inr (Or.inr ⟨h4, h⟩))

/-- C1: whenever `ConvertGeometryToGPKG` succeeds, the blob starts with the
bytes 0x47, 0x00, 0x01, bytes 3 to 6 decode (little-endian) to 3857, byte 7 is
0x00, bytes 8 to 39 decode to minX, maxX, minY, maxY of `CalculateEnvelope` on
the coordinates, and what follows byte 39 is exactly the WKB body of the
encoder of the geometry type, so the length is 40 plus that of the body. -/
theorem ConvertGeometryToGPKG_layout (rt : GoRuntime) (geometry : List (String × Value))
    (blob : Bytes) (h : ConvertGeometryToGPKG rt geometry = .ok blob) :
    ∃ geomType coordinates wkb,
      geometry.lookup "type" = some (.str geomType) ∧
      geometry.lookup "coordinates" = some coordinates ∧
      ((geomType = "Polygon" ∧ polygonToWKB rt coordinates = .ok wkb) ∨
       (geomType = "Point" ∧ pointToWKB rt coordinates = .ok wkb) ∨
       (geomType = "LineString" ∧ lineStringToWKB rt coordinates = .ok wkb) ∨
       (geomType = "MultiPolygon" ∧ multiPolygonToWKB rt coordinates = .ok wkb)) ∧
      slice blob 0 3 = [0x47, 0x00, 0x01] ∧
      leDecode (slice blob 3 7) = 3857 ∧
      slice blob 7 8 = [0x00] ∧
      decodeF64 (slice blob 8 16) = (CalculateEnvelope rt coordinates geomType).minX ∧
      decodeF64 (slice blob 16 24) = (CalculateEnvelope rt coordinates geomType).maxX ∧
      decodeF64 (slice blob 24 32) = (CalculateEnvelope rt coordinates geomType).minY ∧
      decodeF64 (slice blob 32 40) = (CalculateEnvelope rt coordinates geomType).maxY ∧
      blob.drop 40 = wkb ∧
      blob.length = 40 + wkb.length := by
  unfold ConvertGeometryToGPKG at h
  split at h
  · rename_i geomType hty
    split at h
    · cases h
    · rename_i coordinates hco
      split at h
      · cases h
      · rename_i wkb hwkb
        injection h with h
        subst h
        obtain ⟨e1, e2, e3, e4⟩ :=
          slice_envelope (CalculateEnvelope rt coordinates geomType) wkb
        refine ⟨geomType, coordinates, wkb, hty, hco, encodeByType_ok rt _ _ _ hwkb,
          rfl, rfl, rfl, e1, e2, e3, e4, rfl, ?_⟩
        simp [gpkgHeader, envelopeBytes, length_putUint32, length_putUint64]
        omega
  · cases h

/-- Witness of C1 on the square of the end-to-end example. -/
theorem ConvertGeometryToGPKG_layout_witness :
    ∃ blob, ConvertGeometryToGPKG sampleRuntime squareGeometry = .ok blob ∧
      leDecode (slice blob 3 7) = 3857 ∧ blob.length = 40 + 93 := by
  refine ⟨gpkgHeader ++ envelopeBytes (CalculateEnvelope sampleRuntime squareCoords "Polygon")
    ++ wkbPolygon [[(F64.zero, F64.zero), (F64.zero, f10), (f10, f10), (f10, F64.zero),
      (F64.zero, F64.zero)]], ?_, ?_, ?_⟩
  · rfl
  · obtain ⟨_, _, _, _, _, _, _, h, _⟩ :=
      ConvertGeometryToGPKG_layout sampleRuntime squareGeometry _ rfl
    exact h
  · rfl

/-! ## Polygon body -/

theorem leafPair_some (rt : GoRuntime) (v : Value) (x y : F64)
    (h : leafPair rt v = some (x, y)) :
    ∃ a b tl, v = .arr (a :: b :: tl) ∧ toFloat64 rt a = (x, none) ∧
      toFloat64 rt b = (y, none) := by
  unfold leafPair at h
  split at h
  · rename_i a b tl
    split at h
    · rename_i x1 y1 hx hy
      injection h with h
      injection h with h1 h2
      subst h1 h2
      exact ⟨a, b, tl, rfl, hx, hy⟩
    · cases h
  · cases h

theorem asPoints_cons (rt : GoRuntime) (p : Value) (rest : List Value)
    (qs : List (F64 × F64)) (h : asPoints rt (p :: rest) = some qs) :
    ∃ q qs1, qs = q :: qs1 ∧ leafPair rt p = some q ∧ asPoints rt rest = some qs1 := by
  unfold asPoints at h
  split at h
  · rename_i q qs1 h1 h2
    injection h with h
    exact ⟨q, qs1, h.symm, h1, h2⟩
  · cases h

theorem asRings_cons (rt : GoRuntime) (r : Value) (rest : List Value)
    (qs : List (List (F64 × F64))) (h : asRings rt (r :: rest) = some qs) :
    ∃ q qs1, qs = q :: qs1 ∧ asRing rt r = some q ∧ asRings rt rest = some qs1 := by
  unfold asRings at h
  split at h
  · rename_i q qs1 h1 h2
    injection h with h
    exact ⟨q, qs1, h.symm, h1, h2⟩
  · cases h

theorem asPoints_length (rt : GoRuntime) (pts : List Value) :
    ∀ qs, asPoints rt pts = some qs → qs.length = pts.length := by
  induction pts with
  | nil =>
    intro qs h
    simp [asPoints] at h
    subst h
    rfl
  | cons p rest ih =>
    intro qs h
    obtain ⟨q, qs1, rfl, _, h2⟩ := asPoints_cons rt p rest qs h
    simp [ih qs1 h2]

theorem asRings_length (rt : GoRuntime) (rs : List Value) :
    ∀ qs, asRings rt rs = some qs → qs.length = rs.length := by
  induction rs with
  | nil =>
    intro qs h
    simp [asRings] at h
    subst h
    rfl
  | cons p rest ih =>
    intro qs h
    obtain ⟨q, qs1, rfl, _, h2⟩ := asRings_cons rt p rest qs h
    simp [ih qs1 h2]

theorem ringLoop_ok (rt : GoRuntime) (pts : List Value) :
    ∀ (qs : List (F64 × F64)) (ringBuf : Bytes), asPoints rt pts = some qs →
      ringLoop rt pts ringBuf = .ok (ringBuf ++ wkbPoints qs) := by
  induction pts with
  | nil =>
    intro qs ringBuf h
    simp [asPoints] at h
    subst h
    simp [ringLoop, wkbPoints]
  | cons p rest ih =>
    intro qs ringBuf h
    obtain ⟨⟨x, y⟩, qs1, rfl, h1, h2⟩ := asPoints_cons rt p rest qs h
    obtain ⟨a, b, tl, rfl, hx, hy⟩ := leafPair_some rt p x y h1
    simp only [ringLoop, hx, hy]
    rw [ih qs1 _ h2]
    simp [wkbPoints, pointBuf, List.append_assoc]

theorem ringsLoop_ok (rt : GoRuntime) (rs : List Value) :
    ∀ (qs : List (List (F64 × F64))) (buf : Bytes), asRings rt rs = some qs →
      ringsLoop rt rs buf = .ok (buf ++ wkbRings qs) := by
  induction rs with
  | nil =>
    intro qs buf h
    simp [asRings] at h
    subst h
    simp [ringsLoop, wkbRings]
  | cons r rest ih =>
    intro qs buf h
    obtain ⟨q, qs1, rfl, h1, h2⟩ := asRings_cons rt r rest qs h
    cases r with
    | arr pts =>
      simp only [asRing] at h1
      simp only [ringsLoop, ringLoop_ok rt pts q _ h1]
      rw [ih qs1 _ h2]
      simp [wkbRings, wkbRing, asPoints_length rt pts q h1, List.append_assoc]
    | _ => simp [asRing] at h1

theorem length_wkbPoints (pts : List (F64 × F64)) : (wkbPoints pts).length = 16 * pts.length := by
  induction pts with
  | nil => rfl
  | cons p rest ih =>
    simp [wkbPoints, length_putUint64, ih]
    omega

theorem length_wkbRings (rings : List (List (F64 × F64))) :
    (wkbRings rings).length = ringsSize rings := by
  induction rings with
  | nil => rfl
  | cons r rest ih =>
    simp [wkbRings, wkbRing, ringsSize, length_putUint32, length_wkbPoints, ih]
    omega

theorem polygonToWKB_ok (rt : GoRuntime) (coords : Value) (rings : List (List (F64 × F64)))
    (h : asPolygon rt coords = some rings) (hne : rings ≠ []) :
    polygonToWKB rt coords = .ok (wkbPolygon rings) := by
  cases coords with
  | arr rs =>
    simp only [asPolygon] at h
    have hlen := asRings_length rt rs rings h
    have hpos : rs.length ≠ 0 := by
      intro h0
      rw [h0] at hlen
      exact hne (List.length_eq_zero.mp hlen)
    simp only [polygonToWKB, hpos, if_false, ringsLoop_ok rt rs rings _ h, wkbPolygon, hlen]
  | _ => simp [asPolygon] at h

theorem squareEnvelope (rt : GoRuntime) (geomType : String) :
    CalculateEnvelope rt squareCoords geomType = ⟨F64.zero, f10, F64.zero, f10⟩ := by
  simp [CalculateEnvelope, squareCoords, extractCoords, extractCoordsItems, Envelope.visit, pt,
    toFloat64, Envelope.add, Envelope.sentinel]
  decide

theorem squareBlob (rt : GoRuntime) :
    ConvertGeometryToGPKG rt squareGeometry =
      .ok (gpkgHeader ++ envelopeBytes ⟨F64.zero, f10, F64.zero, f10⟩ ++
        wkbPolygon [squareRing]) := by
  rw [← squareEnvelope rt "Polygon"]
  rfl

/-- C2: on polygon coordinates that are a non-empty list of rings, each a list
of coordinate pairs, `polygonToWKB` returns the byte 1, the type code 3 and the
ring count as little-endian uint32, then each ring in order as a uint32 point
count followed by 16 bytes per point (x then y); the length is 9 plus the sum
over the rings of 4 + 16 * points. For the square
`[[[0,0],[0,10],[10,10],[10,0],[0,0]]]` byte 0 is 1, the type is 3, the ring
count 1, the point count of the ring 5 and the envelope in the blob
(0, 10, 0, 10). -/
theorem polygonToWKB_layout :
    (∀ (rt : GoRuntime) (coords : Value) (rings : List (List (F64 × F64))),
      asPolygon rt coords = some rings → rings ≠ [] →
      polygonToWKB rt coords = .ok (wkbPolygon rings) ∧
      slice (wkbPolygon rings) 0 1 = [1] ∧
      slice (wkbPolygon rings) 1 5 = putUint32 3 ∧
      slice (wkbPolygon rings) 5 9 = putUint32 (toUint32 rings.length) ∧
      leDecode (slice (wkbPolygon rings) 5 9) = toUint32 rings.length ∧
      (wkbPolygon rings).drop 9 = wkbRings rings ∧
      (wkbPolygon rings).length = 9 + ringsSize rings) ∧
    (∀ rt : GoRuntime, ∃ wkb blob,
      polygonToWKB rt squareCoords = .ok wkb ∧
      ConvertGeometryToGPKG rt squareGeometry = .ok blob ∧
      blob.drop 40 = wkb ∧
      slice wkb 0 1 = [1] ∧
      leDecode (slice wkb 1 5) = 3 ∧
      leDecode (slice wkb 5 9) = 1 ∧
      leDecode (slice wkb 9 13) = 5 ∧
      wkb.length = 9 + (4 + 16 * 5) ∧
      decodeF64 (slice blob 8 16) = F64.zero ∧
      decodeF64 (slice blob 16 24) = f10 ∧
      decodeF64 (slice blob 24 32) = F64.zero ∧
      decodeF64 (slice blob 32 40) = f10) := by
  constructor
  · intro rt coords rings h hne
    refine ⟨polygonToWKB_ok rt coords rings h hne, rfl, rfl, rfl, ?_, rfl, ?_⟩
    · show leDecode (putUint32 (toUint32 rings.length)) = toUint32 rings.length
      exact leDecode_putUint32 _ (Nat.mod_lt _ (by decide))
    · simp [wkbPolygon, length_putUint32, length_wkbRings]
      omega
  · intro rt
    exact ⟨wkbPolygon [squareRing],
      gpkgHeader ++ envelopeBytes ⟨F64.zero, f10, F64.zero, f10⟩ ++ wkbPolygon [squareRing],
      rfl, squareBlob rt, rfl, rfl, rfl, rfl, rfl, rfl, rfl, rfl, rfl, rfl⟩

/-- Witness of C2: the square is a polygon of one ring of five pairs. -/
theorem polygonToWKB_layout_witness :
    asPolygon sampleRuntime squareCoords = some [squareRing] ∧
    polygonToWKB sampleRuntime squareCoords = .ok (wkbPolygon [squareRing]) ∧
    (wkbPolygon [squareRing]).length = 9 + ringsSize [squareRing] :=
  ⟨rfl,
   (polygonToWKB_layout.1 sampleRuntime squareCoords [squareRing] rfl (by decide)).1,
   (polygonToWKB_layout.1 sampleRuntime squareCoords [squareRing] rfl (by decide)).2.2.2.2.2.2⟩

/-! ## MultiPolygon body -/

theorem polygonsLoop_ok (rt : GoRuntime) (polys : List Value) (ws : List Bytes)
    (h : List.Forall₂ (fun p w => polygonToWKB rt p = .ok w) polys ws) :
    ∀ buf : Bytes, polygonsLoop rt polys buf = .ok (buf ++ concatDrop 9 ws) := by
  induction h with
  | nil =>
    intro buf
    simp [polygonsLoop, concatDrop]
  | cons hp _ ih =>
    intro buf
    simp only [polygonsLoop, hp]
    rw [ih]
    simp [concatDrop, List.append_assoc]

theorem length_concatDrop (n : Nat) (ws : List Bytes) :
    (concatDrop n ws).length = sumLengthsMinus n ws := by
  induction ws with
  | nil => rfl
  | cons w rest ih => simp [concatDrop, sumLengthsMinus, ih]

/-- C3 (evaluation of the code): for the MultiPolygon `[[[[10,0]]]]` the
polygon is encoded by `polygonToWKB` in 29 bytes and `multiPolygonToWKB`
returns the 9-byte header followed by these bytes from byte 9 on, 29 bytes in
all: the ring-count field of the polygon is dropped, where the claim keeps it
(first 5 bytes removed, 33 bytes). Without the ring counts the body cannot be
read back: the MultiPolygons `[[A,B],[C]]` and `[[A],[B,C]]` get the same
bytes. -/
theorem multiPolygon_drops_ring_counts :
    polygonToWKB sampleRuntime dotCoords = .ok (wkbPolygon [[(f10, F64.zero)]]) ∧
    multiPolygonToWKB sampleRuntime (.arr [dotCoords]) =
      .ok ([1] ++ putUint32 6 ++ putUint32 1 ++ wkbRing [(f10, F64.zero)]) ∧
    multiPolygonToWKB sampleRuntime (.arr [dotCoords]) ≠
      .ok ([1] ++ putUint32 6 ++ putUint32 (toUint32 1) ++
        concatDrop 5 [wkbPolygon [[(f10, F64.zero)]]]) ∧
    multiPolygonToWKB sampleRuntime (.arr [.arr [ringA, ringB], .arr [ringC]]) =
      .ok ([1] ++ putUint32 6 ++ putUint32 2 ++
        (wkbRing [(F64.zero, F64.zero)] ++ wkbRing [(f10, F64.zero)] ++ wkbRing [(f10, f10)])) ∧
    multiPolygonToWKB sampleRuntime (.arr [.arr [ringA], .arr [ringB, ringC]]) =
      multiPolygonToWKB sampleRuntime (.arr [.arr [ringA, ringB], .arr [ringC]]) := by
  refine ⟨rfl, rfl, ?_, rfl, rfl⟩
  intro h
  have h2 : multiPolygonToWKB sampleRuntime (.arr [dotCoords]) =
      .ok ([1] ++ putUint32 6 ++ putUint32 (toUint32 1) ++
        concatDrop 9 [wkbPolygon [[(f10, F64.zero)]]]) := rfl
  rw [h2] at h
  injection h with h
  exact absurd (congrArg List.length h) (by decide)

/-- What `multiPolygonToWKB` returns on k polygons that `polygonToWKB` encodes:
the byte 1, the type code 6 and k as little-endian uint32, followed for each
polygon in order by its `polygonToWKB` encoding from byte 9 on. -/
theorem multiPolygonToWKB_layout (rt : GoRuntime) (polys : List Value) (ws : List Bytes)
    (h : List.Forall₂ (fun p w => polygonToWKB rt p = .ok w) polys ws) :
    ∃ out, multiPolygonToWKB rt (.arr polys) = .ok out ∧
      out = [1] ++ putUint32 6 ++ putUint32 (toUint32 polys.length) ++ concatDrop 9 ws ∧
      slice out 0 1 = [1] ∧
      leDecode (slice out 1 5) = 6 ∧
      leDecode (slice out 5 9) = toUint32 polys.length ∧
      out.drop 9 = concatDrop 9 ws := by
  refine ⟨_, ?_, rfl, rfl, rfl, ?_, rfl⟩
  · simp only [multiPolygonToWKB]
    exact polygonsLoop_ok rt polys ws h _
  · show leDecode (putUint32 (toUint32 polys.length)) = toUint32 polys.length
    exact leDecode_putUint32 _ (Nat.mod_lt _ (by decide))

/-- C4 (evaluation of the code): the MultiPolygon made of the square alone is
encoded in 93 bytes and the square polygon in 93 bytes too, so the length is
9 + (93 - 9) and not the 9 + (93 - 5) = 97 of the claim: the 4 bytes of the
ring count of the polygon are missing. -/
theorem multiPolygon_length_short_by_ring_counts :
    ∃ out w, multiPolygonToWKB sampleRuntime (.arr [squareCoords]) = .ok out ∧
      polygonToWKB sampleRuntime squareCoords = .ok w ∧
      out.length = 93 ∧ w.length = 93 ∧
      out.length = 9 + sumLengthsMinus 9 [w] ∧
      out.length ≠ 9 + sumLengthsMinus 5 [w] ∧
      out.length + 4 = 9 + sumLengthsMinus 5 [w] :=
  ⟨[1] ++ putUint32 6 ++ putUint32 1 ++ wkbRing squareRing, wkbPolygon [squareRing],
    rfl, rfl, rfl, rfl, rfl, by decide, rfl⟩

/-- The length of what `multiPolygonToWKB` returns on polygons that
`polygonToWKB` encodes: 9 plus, for each polygon, the length of its encoding
minus 9. -/
theorem multiPolygonToWKB_length (rt : GoRuntime) (polys : List Value) (ws : List Bytes)
    (h : List.Forall₂ (fun p w => polygonToWKB rt p = .ok w) polys ws) :
    ∃ out, multiPolygonToWKB rt (.arr polys) = .ok out ∧
      out.length = 9 + sumLengthsMinus 9 ws := by
  refine ⟨[1] ++ putUint32 6 ++ putUint32 (toUint32 polys.length) ++ concatDrop 9 ws, ?_, ?_⟩
  · simp only [multiPolygonToWKB]
    exact polygonsLoop_ok rt polys ws h _
  · simp [length_putUint32, length_concatDrop]
    omega

/-! ## Envelope -/

theorem visit_eq (rt : GoRuntime) (v : List Value) (e : Envelope) :
    Envelope.visit rt v e =
      (leafPair rt (.arr v)).toList.foldl (fun acc p => acc.add p.1 p.2) e := by
  unfold Envelope.visit leafPair
  split
  · rename_i v0 v1 tl
    rcases h0 : toFloat64 rt v0 with ⟨x, _ | ex⟩ <;>
      rcases h1 : toFloat64 rt v1 with ⟨y, _ | ey⟩ <;> simp [h0, h1]
  · rename_i hne
    split
    · rename_i a b tl heq
      injection heq with heq
      exact absurd heq (hne a b tl)
    · rfl

mutual
theorem extractCoords_fold (rt : GoRuntime) :
    ∀ (v : Value) (e : Envelope),
      extractCoords rt v e = (leafPairs rt v).foldl (fun acc p => acc.add p.1 p.2) e
  | .arr v, e => by
    simp only [extractCoords, leafPairs, List.foldl_append]
    rw [extractCoordsItems_fold rt v, visit_eq]
  | .null, e => by simp [extractCoords, leafPairs]
  | .bool _, e => by simp [extractCoords, leafPairs]
  | .str _, e => by simp [extractCoords, leafPairs]
  | .float64 _, e => by simp [extractCoords, leafPairs]
  | .float32 _, e => by simp [extractCoords, leafPairs]
  | .int _, e => by simp [extractCoords, leafPairs]
  | .int64 _, e => by simp [extractCoords, leafPairs]
  | .number _, e => by simp [extractCoords, leafPairs]
  | .obj _, e => by simp [extractCoords, leafPairs]
  | .float64s _, e => by simp [extractCoords, leafPairs]
  | .float64ss _, e => by simp [extractCoords, leafPairs]
  | .float64sss _, e => by simp [extractCoords, leafPairs]
  | .float64ssss _, e => by simp [extractCoords, leafPairs]
theorem extractCoordsItems_fold (rt : GoRuntime) :
    ∀ (vs : List Value) (e : Envelope),
      extractCoordsItems rt vs e =
        (leafPairsItems rt vs).foldl (fun acc p => acc.add p.1 p.2) e
  | [], e => by simp [extractCoordsItems, leafPairsItems]
  | item :: rest, e => by
    simp only [extractCoordsItems, leafPairsItems, List.foldl_append]
    rw [extractCoordsItems_fold rt rest, extractCoords_fold rt item]
end

theorem CalculateEnvelope_fold (rt : GoRuntime) (tree : Value) (geomType : String) :
    CalculateEnvelope rt tree geomType =
      (leafPairs rt tree).foldl (fun acc p => acc.add p.1 p.2) Envelope.sentinel := by
  unfold CalculateEnvelope
  exact extractCoords_fold rt tree _

theorem F64.lt_iff (x y : F64) :
    F64.lt x y = true ↔ x.isNaN = false ∧ y.isNaN = false ∧ x.key < y.key := by
  simp [F64.lt, and_assoc]

theorem F64.le_iff (x y : F64) :
    F64.le x y = true ↔ x.isNaN = false ∧ y.isNaN = false ∧ x.key ≤ y.key := by
  simp [F64.le, and_assoc]

theorem fold_add_eq (ps : List (F64 × F64)) :
    ∀ e : Envelope, ps.foldl (fun acc p => acc.add p.1 p.2) e =
      ⟨minimum e.minX (ps.map Prod.fst), maximum e.maxX (ps.map Prod.fst),
       minimum e.minY (ps.map Prod.snd), maximum e.maxY (ps.map Prod.snd)⟩ := by
  induction ps with
  | nil => intro e; rfl
  | cons p rest ih =>
    intro e
    simp only [List.foldl_cons, List.map_cons, ih, minimum, maximum]
    rfl

theorem minimum_spec (xs : List F64) :
    ∀ m : F64, m.isNaN = false →
      (minimum m xs).isNaN = false ∧ (minimum m xs).key ≤ m.key ∧
      ∀ x ∈ xs, x.isNaN = false → (minimum m xs).key ≤ x.key := by
  induction xs with
  | nil =>
    intro m hm
    exact ⟨hm, le_refl _, fun x hx => absurd hx (List.not_mem_nil x)⟩
  | cons a rest ih =>
    intro m hm
    have hstep : minimum m (a :: rest) = minimum (F64.min m a) rest := rfl
    rw [hstep]
    by_cases hlt : F64.lt a m = true
    · obtain ⟨ha, _, hk⟩ := (F64.lt_iff a m).mp hlt
      have hmin : F64.min m a = a := by simp [F64.min, hlt]
      rw [hmin]
      obtain ⟨h1, h2, h3⟩ := ih a ha
      refine ⟨h1, by omega, ?_⟩
      intro x hx hxn
      rcases List.mem_cons.mp hx with rfl | hx
      · exact h2
      · exact h3 x hx hxn
    · have hmin : F64.min m a = m := by simp [F64.min, hlt]
      rw [hmin]
      obtain ⟨h1, h2, h3⟩ := ih m hm
      refine ⟨h1, h2, ?_⟩
      intro x hx hxn
      rcases List.mem_cons.mp hx with rfl | hx
      · have : ¬ x.key < m.key := fun hk => hlt ((F64.lt_iff x m).mpr ⟨hxn, hm, hk⟩)
        omega
      · exact h3 x hx hxn

theorem maximum_spec (xs : List F64) :
    ∀ m : F64, m.isNaN = false →
      (maximum m xs).isNaN = false ∧ m.key ≤ (maximum m xs).key ∧
      ∀ x ∈ xs, x.isNaN = false → x.key ≤ (maximum m xs).key := by
  induction xs with
  | nil =>
    intro m hm
    exact ⟨hm, le_refl _, fun x hx => absurd hx (List.not_mem_nil x)⟩
  | cons a rest ih =>
    intro m hm
    have hstep : maximum m (a :: rest) = maximum (F64.max m a) rest := rfl
    rw [hstep]
    by_cases hlt : F64.lt m a = true
    · obtain ⟨_, ha, hk⟩ := (F64.lt_iff m a).mp hlt
      have hmax : F64.max m a = a := by simp [F64.max, hlt]
      rw [hmax]
      obtain ⟨h1, h2, h3⟩ := ih a ha
      refine ⟨h1, by omega, ?_⟩
      intro x hx hxn
      rcases List.mem_cons.mp hx with rfl | hx
      · exact h2
      · exact h3 x hx hxn
    · have hmax : F64.max m a = m := by simp [F64.max, hlt]
      rw [hmax]
      obtain ⟨h1, h2, h3⟩ := ih m hm
      refine ⟨h1, h2, ?_⟩
      intro x hx hxn
      rcases List.mem_cons.mp hx with rfl | hx
      · have : ¬ m.key < x.key := fun hk => hlt ((F64.lt_iff m x).mpr ⟨hm, hxn, hk⟩)
        omega
      · exact h3 x hx hxn

/-- C5: for a coordinate tree with at least one coordinate pair and no NaN in
its pairs, the envelope of `CalculateEnvelope` has minX <= maxX and
minY <= maxY, and every coordinate pair (x, y) of the tree has
minX <= x <= maxX and minY <= y <= maxY (Go comparisons on float64). -/
theorem CalculateEnvelope_bounds (rt : GoRuntime) (tree : Value) (geomType : String)
    (hne : leafPairs rt tree ≠ [])
    (hnan : ∀ p ∈ leafPairs rt tree, p.1.isNaN = false ∧ p.2.isNaN = false) :
    F64.le (CalculateEnvelope rt tree geomType).minX
      (CalculateEnvelope rt tree geomType).maxX = true ∧
    F64.le (CalculateEnvelope rt tree geomType).minY
      (CalculateEnvelope rt tree geomType).maxY = true ∧
    ∀ p ∈ leafPairs rt tree,
      F64.le (CalculateEnvelope rt tree geomType).minX p.1 = true ∧
      F64.le p.1 (CalculateEnvelope rt tree geomType).maxX = true ∧
      F64.le (CalculateEnvelope rt tree geomType).minY p.2 = true ∧
      F64.le p.2 (CalculateEnvelope rt tree geomType).maxY = true := by
  rw [CalculateEnvelope_fold, fold_add_eq]
  obtain ⟨a1, _, a3⟩ := minimum_spec ((leafPairs rt tree).map Prod.fst) F64.pos1e10 (by decide)
  obtain ⟨b1, _, b3⟩ := maximum_spec ((leafPairs rt tree).map Prod.fst) F64.neg1e10 (by decide)
  obtain ⟨c1, _, c3⟩ := minimum_spec ((leafPairs rt tree).map Prod.snd) F64.pos1e10 (by decide)
  obtain ⟨d1, _, d3⟩ := maximum_spec ((leafPairs rt tree).map Prod.snd) F64.neg1e10 (by decide)
  have key : ∀ p ∈ leafPairs rt tree,
      F64.le (minimum F64.pos1e10 ((leafPairs rt tree).map Prod.fst)) p.1 = true ∧
      F64.le p.1 (maximum F64.neg1e10 ((leafPairs rt tree).map Prod.fst)) = true ∧
      F64.le (minimum F64.pos1e10 ((leafPairs rt tree).map Prod.snd)) p.2 = true ∧
      F64.le p.2 (maximum F64.neg1e10 ((leafPairs rt tree).map Prod.snd)) = true := by
    intro p hp
    obtain ⟨hx, hy⟩ := hnan p hp
    have mx : p.1 ∈ (leafPairs rt tree).map Prod.fst := List.mem_map_of_mem Prod.fst hp
    have my : p.2 ∈ (leafPairs rt tree).map Prod.snd := List.mem_map_of_mem Prod.snd hp
    exact ⟨(F64.le_iff _ _).mpr ⟨a1, hx, a3 _ mx hx⟩, (F64.le_iff _ _).mpr ⟨hx, b1, b3 _ mx hx⟩,
      (F64.le_iff _ _).mpr ⟨c1, hy, c3 _ my hy⟩, (F64.le_iff _ _).mpr ⟨hy, d1, d3 _ my hy⟩⟩
  obtain ⟨p, hp⟩ := List.exists_mem_of_ne_nil _ hne
  obtain ⟨k1, k2, k3, k4⟩ := key p hp
  refine ⟨?_, ?_, key⟩
  · have h1 := (F64.le_iff _ _).mp k1
    have h2 := (F64.le_iff _ _).mp k2
    exact (F64.le_iff _ _).mpr ⟨a1, b1, le_trans h1.2.2 h2.2.2⟩
  · have h1 := (F64.le_iff _ _).mp k3
    have h2 := (F64.le_iff _ _).mp k4
    exact (F64.le_iff _ _).mpr ⟨c1, d1, le_trans h1.2.2 h2.2.2⟩

/-- Witness of C5 on the square of the end-to-end example. -/
theorem CalculateEnvelope_bounds_witness :
    leafPairs sampleRuntime squareCoords = squareRing ∧
    (∀ p ∈ squareRing, p.1.isNaN = false ∧ p.2.isNaN = false) ∧
    F64.le (CalculateEnvelope sampleRuntime squareCoords "Polygon").minX
      (CalculateEnvelope sampleRuntime squareCoords "Polygon").maxX = true := by
  have h1 : leafPairs sampleRuntime squareCoords = squareRing := by
    simp [leafPairs, leafPairsItems, squareCoords, pt, leafPair, toFloat64, squareRing]
  have h2 : ∀ p ∈ squareRing, p.1.isNaN = false ∧ p.2.isNaN = false := by decide
  exact ⟨h1, h2,
    (CalculateEnvelope_bounds sampleRuntime squareCoords "Polygon"
      (by rw [h1]; decide) (by rw [h1]; exact h2)).1⟩

theorem key_eq_pos1e10 (x : F64) (h : x.key = F64.pos1e10.key) : x = F64.pos1e10 := by
  cases x with
  | mk b hb =>
    have hk : F64.pos1e10.key = 4756540486875873280 := by decide
    rw [hk] at h
    simp only [F64.key] at h
    have hb2 : b = 4756540486875873280 := by
      split_ifs at h <;> omega
    subst hb2
    rfl

theorem key_eq_neg1e10 (x : F64) (h : x.key = F64.neg1e10.key) : x = F64.neg1e10 := by
  cases x with
  | mk b hb =>
    have hk : F64.neg1e10.key = -4756540486875873280 := by decide
    rw [hk] at h
    simp only [F64.key] at h
    have hb2 : b = 13979912523730649088 := by
      split_ifs at h
      omega
    subst hb2
    rfl

theorem min_sentinel (x : F64) (h : inSentinelRange x = true) : F64.min F64.pos1e10 x = x := by
  simp only [inSentinelRange, Bool.and_eq_true] at h
  obtain ⟨hx, _, hk⟩ := (F64.le_iff _ _).mp h.2
  unfold F64.min
  by_cases hlt : F64.lt x F64.pos1e10 = true
  · simp [hlt]
  · have hnk : ¬ x.key < F64.pos1e10.key :=
      fun hk2 => hlt ((F64.lt_iff _ _).mpr ⟨hx, by decide, hk2⟩)
    have : x = F64.pos1e10 := key_eq_pos1e10 x (by omega)
    simp [this]

theorem max_sentinel (x : F64) (h : inSentinelRange x = true) : F64.max F64.neg1e10 x = x := by
  simp only [inSentinelRange, Bool.and_eq_true] at h
  obtain ⟨_, hx, hk⟩ := (F64.le_iff _ _).mp h.1
  unfold F64.max
  by_cases hlt : F64.lt F64.neg1e10 x = true
  · simp [hlt]
  · have hnk : ¬ F64.neg1e10.key < x.key :=
      fun hk2 => hlt ((F64.lt_iff _ _).mpr ⟨by decide, hx, hk2⟩)
    have : x = F64.neg1e10 := key_eq_neg1e10 x (by omega)
    simp [this]

theorem minimum_mem (xs : List F64) : ∀ m : F64, minimum m xs ∈ m :: xs := by
  induction xs with
  | nil => intro m; simp [minimum]
  | cons a rest ih =>
    intro m
    have hstep : minimum m (a :: rest) = minimum (F64.min m a) rest := rfl
    rw [hstep]
    have h := ih (F64.min m a)
    unfold F64.min at h ⊢
    split_ifs at h ⊢ <;> simp only [List.mem_cons] at h ⊢ <;> tauto

theorem maximum_mem (xs : List F64) : ∀ m : F64, maximum m xs ∈ m :: xs := by
  induction xs with
  | nil => intro m; simp [maximum]
  | cons a rest ih =>
    intro m
    have hstep : maximum m (a :: rest) = maximum (F64.max m a) rest := rfl
    rw [hstep]
    have h := ih (F64.max m a)
    unfold F64.max at h ⊢
    split_ifs at h ⊢ <;> simp only [List.mem_cons] at h ⊢ <;> tauto

/-- Counterexample to C6 as stated: the Point `[2e10, 0]` has the single
coordinate pair (2e10, 0), whose bounding box has minX = 2e10, but
`CalculateEnvelope` returns minX = 1e10, the initial value. -/
theorem envelope_beyond_sentinel_counterexample :
    leafPairs sampleRuntime (pt f2e10 F64.zero) = [(f2e10, F64.zero)] ∧
    exactBox [(f2e10, F64.zero)] = ⟨f2e10, f2e10, F64.zero, F64.zero⟩ ∧
    CalculateEnvelope sampleRuntime (pt f2e10 F64.zero) "Point" =
      ⟨F64.pos1e10, f2e10, F64.zero, F64.zero⟩ ∧
    CalculateEnvelope sampleRuntime (pt f2e10 F64.zero) "Point" ≠
      exactBox (leafPairs sampleRuntime (pt f2e10 F64.zero)) := by
  decide

/-- C6 (amended): `CalculateEnvelope` returns, for every tree and whatever the
geomType argument, (min of 1e10 and all leaf x, max of -1e10 and all leaf x,
min of 1e10 and all leaf y, max of -1e10 and all leaf y); this is exactly the
bounding box (min x, max x, min y, max y) of the coordinate pairs when all
their components lie between -1e10 and 1e10, and the sentinel
(1e10, -1e10, 1e10, -1e10) when the tree has no coordinate pair. -/
theorem CalculateEnvelope_box (rt : GoRuntime) (tree : Value) (geomType : String) :
    CalculateEnvelope rt tree geomType =
      ⟨minimum F64.pos1e10 ((leafPairs rt tree).map Prod.fst),
       maximum F64.neg1e10 ((leafPairs rt tree).map Prod.fst),
       minimum F64.pos1e10 ((leafPairs rt tree).map Prod.snd),
       maximum F64.neg1e10 ((leafPairs rt tree).map Prod.snd)⟩ ∧
    ((∀ p ∈ leafPairs rt tree, inSentinelRange p.1 = true ∧ inSentinelRange p.2 = true) →
      CalculateEnvelope rt tree geomType = exactBox (leafPairs rt tree)) ∧
    (leafPairs rt tree = [] → CalculateEnvelope rt tree geomType = Envelope.sentinel) ∧
    (∀ other : String, CalculateEnvelope rt tree other = CalculateEnvelope rt tree geomType) := by
  refine ⟨?_, ?_, ?_, fun _ => rfl⟩
  · rw [CalculateEnvelope_fold, fold_add_eq]
    rfl
  · intro hr
    rw [CalculateEnvelope_fold, fold_add_eq]
    cases hps : leafPairs rt tree with
    | nil => rfl
    | cons p ps =>
      rw [hps] at hr
      obtain ⟨h1, h2⟩ := hr p (List.mem_cons_self p ps)
      have e1 : minimum F64.pos1e10 (p.1 :: ps.map Prod.fst) = minimum p.1 (ps.map Prod.fst) := by
        show minimum (F64.min F64.pos1e10 p.1) _ = _
        rw [min_sentinel p.1 h1]
      have e2 : maximum F64.neg1e10 (p.1 :: ps.map Prod.fst) = maximum p.1 (ps.map Prod.fst) := by
        show maximum (F64.max F64.neg1e10 p.1) _ = _
        rw [max_sentinel p.1 h1]
      have e3 : minimum F64.pos1e10 (p.2 :: ps.map Prod.snd) = minimum p.2 (ps.map Prod.snd) := by
        show minimum (F64.min F64.pos1e10 p.2) _ = _
        rw [min_sentinel p.2 h2]
      have e4 : maximum F64.neg1e10 (p.2 :: ps.map Prod.snd) = maximum p.2 (ps.map Prod.snd) := by
        show maximum (F64.max F64.neg1e10 p.2) _ = _
        rw [max_sentinel p.2 h2]
      simp only [List.map_cons, exactBox]
      show Envelope.mk (minimum F64.pos1e10 (p.1 :: ps.map Prod.fst))
        (maximum F64.neg1e10 (p.1 :: ps.map Prod.fst))
        (minimum F64.pos1e10 (p.2 :: ps.map Prod.snd))
        (maximum F64.neg1e10 (p.2 :: ps.map Prod.snd)) = _
      rw [e1, e2, e3, e4]
  · intro hnil
    rw [CalculateEnvelope_fold, hnil]
    rfl

/-- Witness of C6 (amended): the square lies within the sentinel range and its
envelope is its bounding box (0, 10, 0, 10). -/
theorem CalculateEnvelope_box_witness :
    (∀ p ∈ leafPairs sampleRuntime squareCoords,
      inSentinelRange p.1 = true ∧ inSentinelRange p.2 = true) ∧
    exactBox (leafPairs sampleRuntime squareCoords) = ⟨F64.zero, f10, F64.zero, f10⟩ ∧
    CalculateEnvelope sampleRuntime squareCoords "Polygon" =
      exactBox (leafPairs sampleRuntime squareCoords) := by
  have hr : ∀ p ∈ leafPairs sampleRuntime squareCoords,
      inSentinelRange p.1 = true ∧ inSentinelRange p.2 = true := by decide
  exact ⟨hr, by decide, (CalculateEnvelope_box sampleRuntime squareCoords "Polygon").2.1 hr⟩

/-! ## Point and LineString bodies -/

/-- C7: for a Point whose coordinates are a coordinate pair (x, y),
`pointToWKB` returns exactly 21 bytes: byte 0 is 1, bytes 1 to 4 are the
little-endian uint32 1, and bytes 5 to 12 and 13 to 20 decode, as little-endian
doubles, to x and y bit for bit. -/
theorem pointToWKB_roundtrip (rt : GoRuntime) (coords : Value) (x y : F64)
    (h : leafPair rt coords = some (x, y)) :
    ∃ wkb, pointToWKB rt coords = .ok wkb ∧
      wkb.length = 21 ∧
      slice wkb 0 1 = [1] ∧
      slice wkb 1 5 = putUint32 1 ∧
      leDecode (slice wkb 1 5) = 1 ∧
      decodeF64 (slice wkb 5 13) = x ∧
      decodeF64 (slice wkb 13 21) = y ∧
      (decodeF64 (slice wkb 5 13)).bits = x.bits ∧
      (decodeF64 (slice wkb 13 21)).bits = y.bits := by
  obtain ⟨a, b, tl, rfl, hx, hy⟩ := leafPair_some rt coords x y h
  have ex : decodeF64 (slice ([1] ++ putUint32 1 ++ putUint64 x.bits ++ putUint64 y.bits) 5 13)
      = x := decodeF64_putUint64 x
  have ey : decodeF64 (slice ([1] ++ putUint32 1 ++ putUint64 x.bits ++ putUint64 y.bits) 13 21)
      = y := decodeF64_putUint64 y
  refine ⟨[1] ++ putUint32 1 ++ putUint64 x.bits ++ putUint64 y.bits, ?_⟩
  refine ⟨?_, rfl, rfl, rfl, rfl, ex, ey, by rw [ex], by rw [ey]⟩
  simp only [pointToWKB, hx, hy]

/-- Witness of C7 on the Point `[10, 0]`. -/
theorem pointToWKB_roundtrip_witness :
    leafPair sampleRuntime (pt f10 F64.zero) = some (f10, F64.zero) ∧
    ∃ wkb, pointToWKB sampleRuntime (pt f10 F64.zero) = .ok wkb ∧ wkb.length = 21 ∧
      decodeF64 (slice wkb 5 13) = f10 ∧ decodeF64 (slice wkb 13 21) = F64.zero := by
  obtain ⟨wkb, h1, h2, _, _, _, h3, h4, _⟩ :=
    pointToWKB_roundtrip sampleRuntime (pt f10 F64.zero) f10 F64.zero rfl
  exact ⟨rfl, wkb, h1, h2, h3, h4⟩

theorem lineLoop_ok (rt : GoRuntime) (pts : List Value) :
    ∀ (qs : List (F64 × F64)) (buf : Bytes), asPoints rt pts = some qs →
      lineLoop rt pts buf = .ok (buf ++ wkbPoints qs) := by
  induction pts with
  | nil =>
    intro qs buf h
    simp [asPoints] at h
    subst h
    simp [lineLoop, wkbPoints]
  | cons p rest ih =>
    intro qs buf h
    obtain ⟨⟨x, y⟩, qs1, rfl, h1, h2⟩ := asPoints_cons rt p rest qs h
    obtain ⟨a, b, tl, rfl, hx, hy⟩ := leafPair_some rt p x y h1
    simp only [lineLoop, hx, hy]
    rw [ih qs1 _ h2]
    simp [wkbPoints, pointBuf, List.append_assoc]

/-- C8: for a LineString of N coordinate pairs, `lineStringToWKB` returns
9 + 16 * N bytes: the byte 1, the little-endian uint32 2, the little-endian
uint32 N, then the N points in input order, each as x then y little-endian
doubles. -/
theorem lineStringToWKB_layout (rt : GoRuntime) (pts : List Value) (qs : List (F64 × F64))
    (h : asPoints rt pts = some qs) :
    ∃ wkb, lineStringToWKB rt (.arr pts) = .ok wkb ∧
      wkb = wkbLineString qs ∧
      qs.length = pts.length ∧
      wkb.length = 9 + 16 * pts.length ∧
      slice wkb 0 1 = [1] ∧
      slice wkb 1 5 = putUint32 2 ∧
      leDecode (slice wkb 1 5) = 2 ∧
      slice wkb 5 9 = putUint32 (toUint32 pts.length) ∧
      leDecode (slice wkb 5 9) = toUint32 pts.length ∧
      wkb.drop 9 = wkbPoints qs := by
  have hlen := asPoints_length rt pts qs h
  refine ⟨[1] ++ putUint32 2 ++ putUint32 (toUint32 pts.length) ++ wkbPoints qs, ?_⟩
  refine ⟨?_, by rw [wkbLineString, hlen], hlen, ?_, rfl, rfl, rfl, rfl, ?_, rfl⟩
  · simp only [lineStringToWKB]
    exact lineLoop_ok rt pts qs _ h
  · simp [length_putUint32, length_wkbPoints, hlen]
    omega
  · show leDecode (putUint32 (toUint32 pts.length)) = toUint32 pts.length
    exact leDecode_putUint32 _ (Nat.mod_lt _ (by decide))

/-- Witness of C8 on the LineString `[[0,0],[10,10],[10,0]]`. -/
theorem lineStringToWKB_layout_witness :
    asPoints sampleRuntime [pt F64.zero F64.zero, pt f10 f10, pt f10 F64.zero] =
      some [(F64.zero, F64.zero), (f10, f10), (f10, F64.zero)] ∧
    ∃ wkb, lineStringToWKB sampleRuntime
        (.arr [pt F64.zero F64.zero, pt f10 f10, pt f10 F64.zero]) = .ok wkb ∧
      wkb.length = 9 + 16 * 3 ∧ leDecode (slice wkb 5 9) = 3 := by
  obtain ⟨wkb, h1, _, _, h2, _, _, _, _, h3, _⟩ :=
    lineStringToWKB_layout sampleRuntime [pt F64.zero F64.zero, pt f10 f10, pt f10 F64.zero]
      [(F64.zero, F64.zero), (f10, f10), (f10, F64.zero)] rfl
  exact ⟨rfl, wkb, h1, h2, h3⟩

/-! ## Error paths -/

theorem updateGlobal_count (rt : GoRuntime) (geometry : List (String × Value))
    (st : ExportState) : (updateGlobal rt geometry st).count = st.count := by
  unfold updateGlobal
  split <;> rfl

theorem updateGlobal_table (rt : GoRuntime) (geometry : List (String × Value))
    (st : ExportState) : (updateGlobal rt geometry st).table = st.table := by
  unfold updateGlobal
  split <;> rfl

/-- C9: a geometry whose type string is none of Point, LineString, Polygon,
MultiPolygon makes `ConvertGeometryToGPKG` return an error (and so no bytes),
whatever its coordinates, and the row loop of `ExportData` then leaves its
counter (and the destination table) as they were. -/
theorem unsupported_type_rejected (rt : GoRuntime) (geometry : List (String × Value))
    (geomType : String) (hty : geometry.lookup "type" = some (.str geomType))
    (hns : geomType ∉ supportedTypes) :
    (∃ e, ConvertGeometryToGPKG rt geometry = .error e ∧
      (e = "coordinates not found" ∨ e = "unsupported geometry type: " ++ geomType)) ∧
    (∀ (execOk : List StoredRow → StoredRow → Bool) (st : ExportState) (obj : CadastralObject),
      extractGeometryFromJSON rt obj.Data = .ok geometry →
      (exportRow rt execOk st (some obj)).count = st.count ∧
      (exportRow rt execOk st (some obj)).table = st.table) := by
  simp only [supportedTypes, List.mem_cons, List.mem_singleton, List.not_mem_nil, or_false,
    not_or] at hns
  obtain ⟨n1, n2, n3, n4⟩ := hns
  have henc : ∀ coordinates, encodeByType rt geomType coordinates =
      .error ("unsupported geometry type: " ++ geomType) := by
    intro coordinates
    simp [encodeByType, n1, n2, n3, n4]
  have hconv : ∃ e, ConvertGeometryToGPKG rt geometry = .error e ∧
      (e = "coordinates not found" ∨ e = "unsupported geometry type: " ++ geomType) := by
    unfold ConvertGeometryToGPKG
    rw [hty]
    cases hco : geometry.lookup "coordinates" with
    | none => exact ⟨_, rfl, Or.inl rfl⟩
    | some coordinates =>
      simp only [henc coordinates]
      exact ⟨_, rfl, Or.inr rfl⟩
  refine ⟨hconv, ?_⟩
  intro execOk st obj hex
  obtain ⟨e, he, _⟩ := hconv
  simp only [exportRow, hex, he]
  exact ⟨updateGlobal_count rt geometry st, updateGlobal_table rt geometry st⟩

/-- Witness of C9: a row whose single feature is a MultiPoint is skipped, the
counter stays at 0 and nothing is stored. -/
theorem unsupported_type_rejected_witness :
    extractGeometryFromJSON (payloadRuntime (featureDocument multiPointGeometry))
      (sampleObject 7).Data = .ok multiPointGeometry ∧
    ConvertGeometryToGPKG (payloadRuntime (featureDocument multiPointGeometry))
      multiPointGeometry = .error "unsupported geometry type: MultiPoint" ∧
    (exportRow (payloadRuntime (featureDocument multiPointGeometry)) (fun _ _ => true)
      ExportState.init (some (sampleObject 7))).count = 0 := by
  have h := unsupported_type_rejected (payloadRuntime (featureDocument multiPointGeometry))
    multiPointGeometry "MultiPoint" rfl (by decide)
  exact ⟨rfl, rfl, (h.2 (fun _ _ => true) ExportState.init (sampleObject 7) rfl).1⟩

theorem lineLoop_eq_ringLoop (rt : GoRuntime) (pts : List Value) :
    ∀ buf : Bytes, lineLoop rt pts buf = ringLoop rt pts buf := by
  induction pts with
  | nil => intro buf; rfl
  | cons p rest ih =>
    intro buf
    unfold lineLoop ringLoop
    split
    · split
      · rfl
      · split
        · rfl
        · exact ih _
    · rfl

theorem ringLoop_bad (rt : GoRuntime) (pts : List Value) :
    ∀ buf : Bytes, (∃ p ∈ pts, leafPair rt p = none) →
      ∃ e, ringLoop rt pts buf = .error e := by
  induction pts with
  | nil =>
    intro buf h
    obtain ⟨p, hp, _⟩ := h
    exact absurd hp (List.not_mem_nil p)
  | cons q rest ih =>
    intro buf h
    unfold ringLoop
    split
    · rename_i a b tl
      split
      · exact ⟨_, rfl⟩
      · rename_i x hx
        split
        · exact ⟨_, rfl⟩
        · rename_i y hy
          apply ih
          obtain ⟨p, hp, hbad⟩ := h
          rcases List.mem_cons.mp hp with rfl | hp
          · simp [leafPair, hx, hy] at hbad
          · exact ⟨p, hp, hbad⟩
    · exact ⟨_, rfl⟩

theorem ringsLoop_bad (rt : GoRuntime) (rings : List Value) :
    ∀ buf : Bytes, (∃ p ∈ ringsPositions rings, leafPair rt p = none) →
      ∃ e, ringsLoop rt rings buf = .error e := by
  induction rings with
  | nil =>
    intro buf h
    obtain ⟨p, hp, _⟩ := h
    exact absurd hp (List.not_mem_nil p)
  | cons r rest ih =>
    intro buf h
    unfold ringsLoop
    split
    · rename_i ringCoords
      split
      · exact ⟨_, rfl⟩
      · rename_i ringBuf hok
        apply ih
        obtain ⟨p, hp, hbad⟩ := h
        simp only [ringsPositions, elements, List.mem_append] at hp
        rcases hp with hp | hp
        · obtain ⟨e, he⟩ := ringLoop_bad rt ringCoords
            (putUint32 (toUint32 ringCoords.length)) ⟨p, hp, hbad⟩
          rw [he] at hok
          cases hok
        · exact ⟨p, hp, hbad⟩
    · exact ⟨_, rfl⟩

theorem polygonToWKB_bad (rt : GoRuntime) (coords : Value)
    (h : ∃ p ∈ ringsPositions (elements coords), leafPair rt p = none) :
    ∃ e, polygonToWKB rt coords = .error e := by
  unfold polygonToWKB
  split
  · rename_i coordsArray
    split
    · exact ⟨_, rfl⟩
    · exact ringsLoop_bad rt coordsArray _ h
  · exact ⟨_, rfl⟩

theorem polygonsLoop_bad (rt : GoRuntime) (polys : List Value) :
    ∀ buf : Bytes, (∃ p ∈ polygonsPositions polys, leafPair rt p = none) →
      ∃ e, polygonsLoop rt polys buf = .error e := by
  induction polys with
  | nil =>
    intro buf h
    obtain ⟨p, hp, _⟩ := h
    exact absurd hp (List.not_mem_nil p)
  | cons q rest ih =>
    intro buf h
    unfold polygonsLoop
    split
    · exact ⟨_, rfl⟩
    · rename_i polygonWKB hok
      apply ih
      obtain ⟨p, hp, hbad⟩ := h
      simp only [polygonsPositions, List.mem_append] at hp
      rcases hp with hp | hp
      · obtain ⟨e, he⟩ := polygonToWKB_bad rt q ⟨p, hp, hbad⟩
        rw [he] at hok
        cases hok
      · exact ⟨p, hp, hbad⟩

theorem pointToWKB_bad (rt : GoRuntime) (coords : Value) (hbad : leafPair rt coords = none) :
    ∃ e, pointToWKB rt coords = .error e := by
  unfold pointToWKB
  split
  · rename_i a b tl
    split
    · exact ⟨_, rfl⟩
    · rename_i x hx
      split
      · exact ⟨_, rfl⟩
      · rename_i y hy
        simp [leafPair, hx, hy] at hbad
  · exact ⟨_, rfl⟩

theorem lineStringToWKB_bad (rt : GoRuntime) (coords : Value)
    (h : ∃ p ∈ elements coords, leafPair rt p = none) :
    ∃ e, lineStringToWKB rt coords = .error e := by
  unfold lineStringToWKB
  split
  · rename_i coordsArray
    rw [lineLoop_eq_ringLoop]
    exact ringLoop_bad rt coordsArray _ h
  · exact ⟨_, rfl⟩

theorem multiPolygonToWKB_bad (rt : GoRuntime) (coords : Value)
    (h : ∃ p ∈ polygonsPositions (elements coords), leafPair rt p = none) :
    ∃ e, multiPolygonToWKB rt coords = .error e := by
  unfold multiPolygonToWKB
  split
  · rename_i coordsArray
    exact polygonsLoop_bad rt coordsArray _ h
  · exact ⟨_, rfl⟩

theorem encodeByType_bad (rt : GoRuntime) (geomType : String) (coordinates : Value)
    (p : Value) (hp : p ∈ pairPositions geomType coordinates) (hbad : leafPair rt p = none) :
    ∃ e, encodeByType rt geomType coordinates = .error e := by
  by_cases h1 : geomType = "Point"
  · subst h1
    have hp2 : p = coordinates := by simpa [pairPositions] using hp
    subst hp2
    have he : encodeByType rt "Point" p = pointToWKB rt p := by simp [encodeByType]
    rw [he]
    exact pointToWKB_bad rt p hbad
  · by_cases h2 : geomType = "LineString"
    · subst h2
      have hp2 : p ∈ elements coordinates := by simpa [pairPositions] using hp
      have he : encodeByType rt "LineString" coordinates = lineStringToWKB rt coordinates := by
        simp [encodeByType]
      rw [he]
      exact lineStringToWKB_bad rt coordinates ⟨p, hp2, hbad⟩
    · by_cases h3 : geomType = "Polygon"
      · subst h3
        have hp2 : p ∈ ringsPositions (elements coordinates) := by
          simpa [pairPositions] using hp
        have he : encodeByType rt "Polygon" coordinates = polygonToWKB rt coordinates := by
          simp [encodeByType]
        rw [he]
        exact polygonToWKB_bad rt coordinates ⟨p, hp2, hbad⟩
      · by_cases h4 : geomType = "MultiPolygon"
        · subst h4
          have hp2 : p ∈ polygonsPositions (elements coordinates) := by
            simpa [pairPositions] using hp
          have he : encodeByType rt "MultiPolygon" coordinates =
              multiPolygonToWKB rt coordinates := by
            simp [encodeByType]
          rw [he]
          exact multiPolygonToWKB_bad rt coordinates ⟨p, hp2, hbad⟩
        · simp [pairPositions, h1, h2, h3, h4] at hp

/-- C10: when a geometry of a supported type holds, at a position where its
type puts a coordinate pair, a value that is not a coordinate pair (not a list,
a list of fewer than two elements, or a first or second element that is not
numeric), `ConvertGeometryToGPKG` returns an error and no bytes, wherever in
the tree that position is. -/
theorem malformed_pair_rejected (rt : GoRuntime) (geometry : List (String × Value))
    (geomType : String) (coordinates : Value) (p : Value)
    (hty : geometry.lookup "type" = some (.str geomType))
    (hco : geometry.lookup "coordinates" = some coordinates)
    (_hsup : geomType ∈ supportedTypes)
    (hp : p ∈ pairPositions geomType coordinates)
    (hbad : leafPair rt p = none) :
    ∃ e, ConvertGeometryToGPKG rt geometry = .error e := by
  obtain ⟨e, he⟩ := encodeByType_bad rt geomType coordinates p hp hbad
  unfold ConvertGeometryToGPKG
  rw [hty, hco]
  simp only [he]
  exact ⟨e, rfl⟩

/-- Witness of C10: the LineString `[[0,0],[10]]`, whose second element has a
single component. -/
theorem malformed_pair_rejected_witness :
    .arr [.float64 f10] ∈ pairPositions "LineString"
      (.arr [pt F64.zero F64.zero, .arr [.float64 f10]]) ∧
    leafPair sampleRuntime (.arr [.float64 f10]) = none ∧
    ∃ e, ConvertGeometryToGPKG sampleRuntime brokenLine = .error e := by
  have hp : Value.arr [.float64 f10] ∈ pairPositions "LineString"
      (.arr [pt F64.zero F64.zero, .arr [.float64 f10]]) := by
    simp [pairPositions, elements]
  exact ⟨hp, rfl,
    malformed_pair_rejected sampleRuntime brokenLine "LineString" _ (.arr [.float64 f10])
      rfl rfl (by decide) hp rfl⟩

/-! ## Minimum shape -/

theorem polygonsLoop_fail (rt : GoRuntime) (polys : List Value) :
    ∀ buf : Bytes, (∃ p ∈ polys, ∃ e, polygonToWKB rt p = .error e) →
      ∃ e, polygonsLoop rt polys buf = .error e := by
  induction polys with
  | nil =>
    intro buf h
    obtain ⟨p, hp, _⟩ := h
    exact absurd hp (List.not_mem_nil p)
  | cons q rest ih =>
    intro buf h
    unfold polygonsLoop
    split
    · exact ⟨_, rfl⟩
    · rename_i polygonWKB hok
      apply ih
      obtain ⟨p, hp, e, he⟩ := h
      rcases List.mem_cons.mp hp with rfl | hp
      · rw [he] at hok
        cases hok
      · exact ⟨p, hp, e, he⟩

theorem envelope_no_pair (rt : GoRuntime) (geomType : String) :
    CalculateEnvelope rt (.arr [.arr []]) geomType = Envelope.sentinel ∧
    CalculateEnvelope rt (.arr []) geomType = Envelope.sentinel := by
  constructor <;>
    simp [CalculateEnvelope, extractCoords, extractCoordsItems, Envelope.visit]

/-- C11 (evaluation of the code): the Polygon `[[]]`, whose ring has no point,
the MultiPolygon `[]`, which has no polygon, the MultiPolygon `[[[]]]` and the
Polygon made of an empty ring and of the ring of the square are all encoded,
with counts of 0, and no error is returned; of the minimum shapes only the
Polygon without ring `[]` is rejected, also inside a MultiPolygon. -/
theorem empty_shapes_encoded :
    ConvertGeometryToGPKG sampleRuntime emptyRingGeometry =
      .ok (gpkgHeader ++ envelopeBytes Envelope.sentinel ++
        ([1] ++ putUint32 3 ++ putUint32 1 ++ putUint32 0)) ∧
    ConvertGeometryToGPKG sampleRuntime emptyMultiPolygonGeometry =
      .ok (gpkgHeader ++ envelopeBytes Envelope.sentinel ++
        ([1] ++ putUint32 6 ++ putUint32 0)) ∧
    ConvertGeometryToGPKG sampleRuntime emptyRingMultiPolygonGeometry =
      .ok (gpkgHeader ++ envelopeBytes Envelope.sentinel ++
        ([1] ++ putUint32 6 ++ putUint32 1 ++ putUint32 0)) ∧
    ConvertGeometryToGPKG sampleRuntime emptyRingSquareGeometry =
      .ok (gpkgHeader ++ envelopeBytes ⟨F64.zero, f10, F64.zero, f10⟩ ++
        ([1] ++ putUint32 3 ++ putUint32 2 ++ putUint32 0 ++ wkbRing squareRing)) ∧
    ConvertGeometryToGPKG sampleRuntime emptyPolygonGeometry =
      .error "invalid polygon coordinates" ∧
    ConvertGeometryToGPKG sampleRuntime holedMultiPolygonGeometry =
      .error "invalid polygon coordinates" :=
  ⟨rfl, rfl, rfl, rfl, rfl, rfl⟩

/-- The size checks of the encoders, for every runtime: a Polygon with zero
rings and a MultiPolygon one of whose polygons has zero rings make
`ConvertGeometryToGPKG` fail, the Polygon `[[]]` and the MultiPolygon `[]` do
not. -/
theorem minimum_shape_checked (rt : GoRuntime) (geometry : List (String × Value)) :
    (geometry.lookup "type" = some (.str "Polygon") →
      geometry.lookup "coordinates" = some (.arr []) →
      ConvertGeometryToGPKG rt geometry = .error "invalid polygon coordinates") ∧
    (∀ polys : List Value, geometry.lookup "type" = some (.str "MultiPolygon") →
      geometry.lookup "coordinates" = some (.arr polys) → Value.arr [] ∈ polys →
      ∃ e, ConvertGeometryToGPKG rt geometry = .error e) ∧
    (geometry.lookup "type" = some (.str "Polygon") →
      geometry.lookup "coordinates" = some (.arr [.arr []]) →
      ConvertGeometryToGPKG rt geometry =
        .ok (gpkgHeader ++ envelopeBytes Envelope.sentinel ++
          ([1] ++ putUint32 3 ++ putUint32 1 ++ putUint32 0))) ∧
    (geometry.lookup "type" = some (.str "MultiPolygon") →
      geometry.lookup "coordinates" = some (.arr []) →
      ConvertGeometryToGPKG rt geometry =
        .ok (gpkgHeader ++ envelopeBytes Envelope.sentinel ++
          ([1] ++ putUint32 6 ++ putUint32 0))) := by
  refine ⟨?_, ?_, ?_, ?_⟩
  · intro hty hco
    simp [ConvertGeometryToGPKG, hty, hco, encodeByType, polygonToWKB]
  · intro polys hty hco hmem
    have hbad : ∃ e, polygonsLoop rt polys
        ([1] ++ putUint32 6 ++ putUint32 (toUint32 polys.length)) = .error e :=
      polygonsLoop_fail rt polys _ ⟨.arr [], hmem, "invalid polygon coordinates", by
        simp [polygonToWKB]⟩
    obtain ⟨e, he⟩ := hbad
    refine ⟨e, ?_⟩
    have henc : encodeByType rt "MultiPolygon" (.arr polys) = .error e := by
      have hm : encodeByType rt "MultiPolygon" (.arr polys) = multiPolygonToWKB rt (.arr polys) := by
        simp [encodeByType]
      rw [hm]
      simp only [multiPolygonToWKB, he]
    simp only [ConvertGeometryToGPKG, hty, hco, henc]
  · intro hty hco
    have henc : encodeByType rt "Polygon" (.arr [.arr []]) =
        .ok ([1] ++ putUint32 3 ++ putUint32 1 ++ putUint32 0) := rfl
    simp only [ConvertGeometryToGPKG, hty, hco, henc, (envelope_no_pair rt "Polygon").1]
  · intro hty hco
    have henc : encodeByType rt "MultiPolygon" (.arr []) =
        .ok ([1] ++ putUint32 6 ++ putUint32 0) := rfl
    simp only [ConvertGeometryToGPKG, hty, hco, henc, (envelope_no_pair rt "MultiPolygon").2]

/-! ## Geometry extraction -/

/-- C12: on a parsed payload, `extractGeometryFromJSON` returns a geometry `g`
exactly when the payload has a field `data` that is an object, whose field
`features` is a non-empty array, whose first element is an object, whose field
`geometry` is the object `g` (whatever the features after the first); in every
other case it returns an error. -/
theorem extractGeometryFromJSON_first_feature (rt : GoRuntime) (dataStr : String)
    (data : List (String × Value)) (h : rt.jsonUnmarshal dataStr = .ok data) :
    (∀ g, extractGeometryFromJSON rt dataStr = .ok g ↔
      ∃ dataObj feature rest,
        data.lookup "data" = some (.obj dataObj) ∧
        dataObj.lookup "features" = some (.arr (.obj feature :: rest)) ∧
        feature.lookup "geometry" = some (.obj g)) ∧
    ((¬ ∃ g dataObj feature rest,
        data.lookup "data" = some (.obj dataObj) ∧
        dataObj.lookup "features" = some (.arr (.obj feature :: rest)) ∧
        feature.lookup "geometry" = some (.obj g)) →
      ∃ e, extractGeometryFromJSON rt dataStr = .error e) := by
  have main : ∀ g, extractGeometryFromJSON rt dataStr = .ok g ↔
      ∃ dataObj feature rest,
        data.lookup "data" = some (.obj dataObj) ∧
        dataObj.lookup "features" = some (.arr (.obj feature :: rest)) ∧
        feature.lookup "geometry" = some (.obj g) := by
    intro g
    constructor
    · intro hg
      simp only [extractGeometryFromJSON, h] at hg
      split at hg
      · rename_i dataObj hd
        split at hg
        · rename_i feature0 rest hf
          split at hg
          · rename_i feature
            split at hg
            · rename_i geometry hgeo
              injection hg with hg
              subst hg
              exact ⟨dataObj, feature, rest, hd, hf, hgeo⟩
            · cases hg
          · cases hg
        · cases hg
      · cases hg
    · rintro ⟨dataObj, feature, rest, hd, hf, hgeo⟩
      simp only [extractGeometryFromJSON, h, hd, hf, hgeo]
  refine ⟨main, ?_⟩
  intro hno
  cases hres : extractGeometryFromJSON rt dataStr with
  | error e => exact ⟨e, rfl⟩
  | ok g =>
    obtain ⟨dataObj, feature, rest, h1, h2, h3⟩ := (main g).mp hres
    exact absurd ⟨g, dataObj, feature, rest, h1, h2, h3⟩ hno

/-- Witness of C12: the document with one MultiPoint feature. -/
theorem extractGeometryFromJSON_first_feature_witness :
    (payloadRuntime (featureDocument multiPointGeometry)).jsonUnmarshal "row" =
      .ok (featureDocument multiPointGeometry) ∧
    extractGeometryFromJSON (payloadRuntime (featureDocument multiPointGeometry)) "row" =
      .ok multiPointGeometry :=
  ⟨rfl, ((extractGeometryFromJSON_first_feature
      (payloadRuntime (featureDocument multiPointGeometry)) "row"
      (featureDocument multiPointGeometry) rfl).1 multiPointGeometry).mpr
      ⟨_, _, _, rfl, rfl, rfl⟩⟩

/-! ## Reprojection -/

theorem lookup_cons_eq (a k : String) (v : Value) (m : List (String × Value)) :
    List.lookup a ((k, v) :: m) = if a = k then some v else List.lookup a m := by
  by_cases h : a = k
  · subst h
    simp [List.lookup]
  · have hb : (a == k) = false := by simpa using h
    simp [List.lookup, hb, h]

theorem lookup_mapSet (a k : String) (v : Value) (m : List (String × Value)) :
    (mapSet k v m).lookup a = if a = k then some v else m.lookup a := by
  induction m with
  | nil => simp [mapSet, lookup_cons_eq]
  | cons kv rest ih =>
    obtain ⟨k1, v1⟩ := kv
    unfold mapSet
    by_cases h1 : k1 = k
    · subst h1
      by_cases h : a = k1 <;> simp [lookup_cons_eq, h]
    · by_cases h : a = k
      · subst h
        have h3 : ¬ a = k1 := fun h2 => h1 h2.symm
        simp [lookup_cons_eq, h1, h3, ih]
      · by_cases h2 : a = k1 <;> simp [lookup_cons_eq, h1, h, h2, ih]

theorem lookup_mapDelete (a k : String) (m : List (String × Value)) :
    (mapDelete k m).lookup a = if a = k then none else m.lookup a := by
  induction m with
  | nil => simp [mapDelete]
  | cons kv rest ih =>
    obtain ⟨k1, v1⟩ := kv
    unfold mapDelete at ih ⊢
    by_cases h1 : k1 = k
    · subst h1
      have hf : List.filter (fun kv => kv.1 != k1) ((k1, v1) :: rest) =
          List.filter (fun kv => kv.1 != k1) rest := by simp [List.filter]
      rw [hf, ih, lookup_cons_eq]
      by_cases h : a = k1 <;> simp [h]
    · have hne : (k1 != k) = true := by simpa using h1
      have hf : List.filter (fun kv => kv.1 != k) ((k1, v1) :: rest) =
          (k1, v1) :: List.filter (fun kv => kv.1 != k) rest := by simp [List.filter, hne]
      rw [hf, lookup_cons_eq, ih, lookup_cons_eq]
      by_cases h : a = k
      · have h3 : ¬ a = k1 := fun h2 => h1 (h2 ▸ h)
        simp [h, h3]
        intro h4
        exact absurd h4.symm h1
      · simp [h]

theorem asPolygons_cons (rt : GoRuntime) (p : Value) (rest : List Value)
    (qs : List (List (List (F64 × F64)))) (h : asPolygons rt (p :: rest) = some qs) :
    ∃ q qs1, qs = q :: qs1 ∧ asPolygon rt p = some q ∧ asPolygons rt rest = some qs1 := by
  unfold asPolygons at h
  split at h
  · rename_i q qs1 h1 h2
    injection h with h
    exact ⟨q, qs1, h.symm, h1, h2⟩
  · cases h

theorem convertPair_eq (rt : GoRuntime) (fo : FloatOps) (a b : Value) (x y : F64)
    (hx : toFloat64 rt a = (x, none)) (hy : toFloat64 rt b = (y, none)) :
    convertPair rt fo a b = projectPair fo (x, y) := by
  simp [convertPair, projectPair, hx, hy]

theorem convertPoints_ok (rt : GoRuntime) (fo : FloatOps) (msg : String) (pts : List Value) :
    ∀ qs : List (F64 × F64), asPoints rt pts = some qs →
      convertPoints rt fo msg pts = .ok (qs.map (projectPair fo)) := by
  induction pts with
  | nil =>
    intro qs h
    simp [asPoints] at h
    subst h
    rfl
  | cons p rest ih =>
    intro qs h
    obtain ⟨⟨x, y⟩, qs1, rfl, h1, h2⟩ := asPoints_cons rt p rest qs h
    obtain ⟨a, b, tl, rfl, hx, hy⟩ := leafPair_some rt p x y h1
    simp only [convertPoints, ih qs1 h2, convertPair_eq rt fo a b x y hx hy, List.map_cons]

theorem convertRings_ok (rt : GoRuntime) (fo : FloatOps) (msgRing msgPoint : String)
    (rs : List Value) :
    ∀ qs : List (List (F64 × F64)), asRings rt rs = some qs →
      convertRings rt fo msgRing msgPoint rs =
        .ok (qs.map (fun r => r.map (projectPair fo))) := by
  induction rs with
  | nil =>
    intro qs h
    simp [asRings] at h
    subst h
    rfl
  | cons r rest ih =>
    intro qs h
    obtain ⟨q, qs1, rfl, h1, h2⟩ := asRings_cons rt r rest qs h
    cases r with
    | arr pts =>
      simp only [asRing] at h1
      simp only [convertRings, convertPoints_ok rt fo msgPoint pts q h1, ih qs1 h2,
        List.map_cons]
    | _ => simp [asRing] at h1

theorem convertPolygons_ok (rt : GoRuntime) (fo : FloatOps) (polys : List Value) :
    ∀ qs : List (List (List (F64 × F64))), asPolygons rt polys = some qs →
      convertPolygons rt fo polys =
        .ok (qs.map (fun rs => rs.map (fun r => r.map (projectPair fo)))) := by
  induction polys with
  | nil =>
    intro qs h
    simp [asPolygons] at h
    subst h
    rfl
  | cons p rest ih =>
    intro qs h
    obtain ⟨q, qs1, rfl, h1, h2⟩ := asPolygons_cons rt p rest qs h
    cases p with
    | arr rs =>
      simp only [asPolygon] at h1
      simp only [convertPolygons, convertRings_ok rt fo _ _ rs q h1, ih qs1 h2, List.map_cons]
    | _ => simp [asPolygon] at h1

theorem convertCoordinates_ok (rt : GoRuntime) (fo : FloatOps) (geomType : String)
    (coords out : Value) (h : projectedCoordinates rt fo geomType coords = some out) :
    convertCoordinates rt fo geomType coords = .ok out := by
  unfold projectedCoordinates at h
  unfold convertCoordinates
  split_ifs at h ⊢ with h1 h2 h3 h4
  · cases hp : leafPair rt coords with
    | none => simp [hp] at h
    | some p =>
      obtain ⟨x, y⟩ := p
      obtain ⟨a, b, tl, rfl, hx, hy⟩ := leafPair_some rt coords x y hp
      simp only [hp, Option.map_some', Option.some.injEq] at h
      subst h
      simp only [convertPair_eq rt fo a b x y hx hy]
  · cases coords with
    | arr pts =>
      cases hp : asPoints rt pts with
      | none => simp [asRing, hp] at h
      | some qs =>
        simp only [asRing, hp, Option.map_some', Option.some.injEq] at h
        subst h
        simp only [convertPoints_ok rt fo _ pts qs hp]
    | _ => simp [asRing] at h
  · cases coords with
    | arr rs =>
      cases hp : asRings rt rs with
      | none => simp [asPolygon, hp] at h
      | some qs =>
        simp only [asPolygon, hp, Option.map_some', Option.some.injEq] at h
        subst h
        simp only [convertRings_ok rt fo _ _ rs qs hp]
    | _ => simp [asPolygon] at h
  · cases coords with
    | arr polys =>
      cases hp : asPolygons rt polys with
      | none => simp [hp] at h
      | some qs =>
        simp only [hp, Option.map_some', Option.some.injEq] at h
        subst h
        simp only [convertPolygons_ok rt fo polys qs hp]
    | _ => simp at h

/-- C13: on a well-formed geometry of type Point, LineString, Polygon or
MultiPolygon `convertGeometryToWGS84` returns no error and leaves a geometry
object whose `type` is unchanged, whose `coordinates` have the same nesting
with every coordinate pair (x, y) replaced by `webMercatorToWGS84(x, y)`,
which has no key `crs`, and whose other keys are unchanged. -/
theorem convertGeometryToWGS84_projects (rt : GoRuntime) (fo : FloatOps)
    (geom : List (String × Value)) (geomType : String) (coords out : Value)
    (hty : geom.lookup "type" = some (.str geomType))
    (hco : geom.lookup "coordinates" = some coords)
    (hwf : projectedCoordinates rt fo geomType coords = some out) :
    ∃ geom1, convertGeometryToWGS84 rt fo (.obj geom) = (.obj geom1, none) ∧
      geom1.lookup "type" = some (.str geomType) ∧
      geom1.lookup "coordinates" = some out ∧
      geom1.lookup "crs" = none ∧
      ∀ k : String, k ≠ "coordinates" → k ≠ "crs" → geom1.lookup k = geom.lookup k := by
  refine ⟨mapDelete "crs" (mapSet "coordinates" out geom), ?_, ?_, ?_, ?_, ?_⟩
  · simp only [convertGeometryToWGS84, hco, hty, convertCoordinates_ok rt fo geomType coords out hwf]
  · rw [lookup_mapDelete, lookup_mapSet, hty]
    simp
  · rw [lookup_mapDelete, lookup_mapSet]
    simp
  · rw [lookup_mapDelete]
    simp
  · intro k h1 h2
    rw [lookup_mapDelete, lookup_mapSet]
    simp [h1, h2]

/-- Witness of C13: the square with a `crs` marker and a further key. -/
theorem convertGeometryToWGS84_projects_witness :
    projectedCoordinates sampleRuntime sampleFloatOps "Polygon" squareCoords =
      some (.float64sss [squareRing.map (projectPair sampleFloatOps)]) ∧
    ∃ geom1, convertGeometryToWGS84 sampleRuntime sampleFloatOps (.obj crsSquareGeometry) =
        (.obj geom1, none) ∧
      geom1.lookup "coordinates" =
        some (.float64sss [squareRing.map (projectPair sampleFloatOps)]) ∧
      geom1.lookup "crs" = none ∧ geom1.lookup "note" = some (.str "parcel") := by
  obtain ⟨geom1, h1, _, h3, h4, h5⟩ :=
    convertGeometryToWGS84_projects sampleRuntime sampleFloatOps crsSquareGeometry "Polygon"
      squareCoords (.float64sss [squareRing.map (projectPair sampleFloatOps)]) rfl rfl rfl
  exact ⟨rfl, geom1, h1, h3, h4, (h5 "note" (by decide) (by decide)).trans rfl⟩

/-! ## GeoPackage header -/

theorem header_bytes (rt : GoRuntime) (geometry : List (String × Value)) (blob : Bytes)
    (h : ConvertGeometryToGPKG rt geometry = .ok blob) :
    slice blob 0 8 = [0x47, 0x00, 0x01, 0x11, 0x0F, 0x00, 0x00, 0x00] ∧
    standardGpkgHeader 3857 blob = false := by
  unfold ConvertGeometryToGPKG at h
  split at h
  · split at h
    · cases h
    · split at h
      · cases h
      · injection h with h
        subst h
        exact ⟨rfl, rfl⟩
  · cases h

/-- C14 (evaluation of the code): the blob of the square starts with the bytes
47 00 01 11 0F 00 00 00, so its second byte is not the 0x50 of the magic "GP",
the byte read as version is 1, the byte read as flags is 0x11 (envelope
indicator 0) and the bytes read as srs_id decode to 15: it is not a GeoPackage
binary header. -/
theorem gpkg_header_not_standard :
    ∃ blob, ConvertGeometryToGPKG sampleRuntime squareGeometry = .ok blob ∧
      slice blob 0 8 = [0x47, 0x00, 0x01, 0x11, 0x0F, 0x00, 0x00, 0x00] ∧
      slice blob 1 2 ≠ [0x50] ∧
      blob.getD 3 0 / 2 % 8 = 0 ∧
      leDecode (slice blob 4 8) = 15 ∧
      standardGpkgHeader 3857 blob = false :=
  ⟨gpkgHeader ++ envelopeBytes ⟨F64.zero, f10, F64.zero, f10⟩ ++ wkbPolygon [squareRing],
    squareBlob sampleRuntime, rfl, by decide, rfl, rfl, rfl⟩

/-! ## Feature properties -/

theorem lookup_mergeExisting (existing : List (String × Value)) :
    ∀ (properties : List (String × Value)) (k : String),
      (mergeExisting existing properties).lookup k =
        firstSome (properties.lookup k) (existing.lookup k) := by
  induction existing with
  | nil =>
    intro properties k
    cases h : properties.lookup k <;> simp [mergeExisting, firstSome, h]
  | cons kv rest ih =>
    intro properties k
    obtain ⟨k1, v1⟩ := kv
    simp only [mergeExisting]
    rw [ih, lookup_cons_eq]
    cases h1 : properties.lookup k1 with
    | some w =>
      simp only [Option.isSome_some, if_true]
      cases h : properties.lookup k with
      | some u => simp [firstSome]
      | none =>
        have hk : ¬ k = k1 := by
          intro hk
          rw [hk, h1] at h
          cases h
        simp [firstSome, hk]
    | none =>
      simp only [Option.isSome_none, Bool.false_eq_true, if_false, lookup_mapSet]
      by_cases hk : k = k1
      · subst hk
        simp [firstSome, h1]
      · simp only [hk, if_false]

theorem featureProperties_eq (obj : CadastralObject) (feature : List (String × Value)) :
    featureProperties obj feature = mergeExisting (existingProperties feature) (rowProperties obj) := by
  unfold featureProperties existingProperties
  split <;> simp_all [mergeExisting]

theorem lookup_isSome_iff (m : List (String × Value)) (k : String) :
    (m.lookup k).isSome = true ↔ k ∈ m.map Prod.fst := by
  induction m with
  | nil => simp
  | cons kv rest ih =>
    obtain ⟨k1, v1⟩ := kv
    rw [lookup_cons_eq]
    by_cases h : k = k1
    · simp [h]
    · simp [h, ih]

theorem lookup_baseProperties_isSome (obj : CadastralObject) (k : String) :
    ((baseProperties obj).lookup k).isSome = true ↔ k ∈ baseKeys := by
  rw [lookup_isSome_iff]
  exact Iff.rfl

theorem lookup_rowProperties (obj : CadastralObject) (k : String) :
    (rowProperties obj).lookup k =
      if k = "update_date" then obj.UpdateDate.map Value.str else (baseProperties obj).lookup k := by
  have hbase : (baseProperties obj).lookup "update_date" = none := by
    cases h : (baseProperties obj).lookup "update_date" with
    | none => rfl
    | some v =>
      have hs : ((baseProperties obj).lookup "update_date").isSome = true := by simp [h]
      exact absurd ((lookup_baseProperties_isSome obj "update_date").mp hs) (by decide)
  unfold rowProperties
  cases hd : obj.UpdateDate with
  | none =>
    by_cases hk : k = "update_date"
    · subst hk
      simp [hbase]
    · simp [hk]
  | some d =>
    rw [lookup_mapSet]
    by_cases hk : k = "update_date" <;> simp [hk]

theorem featureProperties_mapSet_geometry (obj : CadastralObject) (g : Value)
    (feature : List (String × Value)) :
    featureProperties obj (mapSet "geometry" g feature) = featureProperties obj feature := by
  unfold featureProperties
  rw [lookup_mapSet]
  simp

/-- C16: the map assigned to `properties` is the merge of the property set
derived from the row with the properties that the feature had, the derived set
winning: a key of the derived set has its derived value, any other key has the
value that the feature had for it (none if it had none), and `update_date` is
in the derived set exactly when the update date of the row is present; the
exported feature carries this map under `properties`. -/
theorem featureProperties_merge (obj : CadastralObject) (feature : List (String × Value)) :
    (∀ k v, (rowProperties obj).lookup k = some v →
      (featureProperties obj feature).lookup k = some v) ∧
    (∀ k, (rowProperties obj).lookup k = none →
      (featureProperties obj feature).lookup k = (existingProperties feature).lookup k) ∧
    (∀ k, ((rowProperties obj).lookup k).isSome = true ↔
      k ∈ baseKeys ∨ (k = "update_date" ∧ obj.UpdateDate.isSome = true)) ∧
    (rowProperties obj).lookup "update_date" = obj.UpdateDate.map Value.str ∧
    (∀ k, k ≠ "update_date" → (rowProperties obj).lookup k = (baseProperties obj).lookup k) ∧
    (∀ (rt : GoRuntime) (fo : FloatOps) (f : List (String × Value)),
      geoJSONFeature rt fo obj = .ok f →
      ∃ data dataObj feature0 rest,
        rt.jsonUnmarshal obj.Data = .ok data ∧
        data.lookup "data" = some (.obj dataObj) ∧
        dataObj.lookup "features" = some (.arr (.obj feature0 :: rest)) ∧
        f.lookup "properties" = some (.obj (featureProperties obj feature0))) := by
  refine ⟨?_, ?_, ?_, ?_, ?_, ?_⟩
  · intro k v h
    rw [featureProperties_eq, lookup_mergeExisting, h]
    rfl
  · intro k h
    rw [featureProperties_eq, lookup_mergeExisting, h]
    rfl
  · intro k
    rw [lookup_rowProperties]
    by_cases hk : k = "update_date"
    · subst hk
      have hnot : ¬ "update_date" ∈ baseKeys := by decide
      cases hd : obj.UpdateDate <;> simp [hnot]
    · simp only [hk, if_false, false_and, or_false]
      exact lookup_baseProperties_isSome obj k
  · rw [lookup_rowProperties]
    simp
  · intro k hk
    rw [lookup_rowProperties]
    simp [hk]
  · intro rt fo f hf
    unfold geoJSONFeature at hf
    split at hf
    · cases hf
    · rename_i data hdata
      split at hf
      · rename_i dataObj hd
        split at hf
        · rename_i feature0 rest hfe
          split at hf
          · rename_i feat
            split at hf
            · cases hf
            · rename_i geometry hconv
              injection hf with hf
              subst hf
              refine ⟨data, dataObj, feat, rest, hdata, hd, hfe, ?_⟩
              rw [lookup_mapSet, featureProperties_mapSet_geometry]
              simp
          · cases hf
        · cases hf
      · cases hf

/-- Witness of C16: a row with an update date and a status, on a feature that
already has a `status` and a `label`. -/
theorem featureProperties_merge_witness :
    (rowProperties datedObject).lookup "status" = some (.str "active") ∧
    (featureProperties datedObject taggedFeature).lookup "status" = some (.str "active") ∧
    (featureProperties datedObject taggedFeature).lookup "label" = some (.str "A-1") ∧
    (featureProperties datedObject taggedFeature).lookup "update_date" =
      some (.str "2024-05-17") :=
  ⟨rfl,
   (featureProperties_merge datedObject taggedFeature).1 "status" (.str "active") rfl,
   ((featureProperties_merge datedObject taggedFeature).2.1 "label" rfl).trans rfl,
   (featureProperties_merge datedObject taggedFeature).1 "update_date" (.str "2024-05-17") rfl⟩

/-! ## Global envelope -/

/-- C17 (evaluation of the code): of the two rows, the square and a MultiPoint
at (20, 20), only the square is stored (the MultiPoint is rejected by
`ConvertGeometryToGPKG`), its envelope is (0, 10, 0, 10), and yet the envelope
written to the contents metadata has max_x = max_y = 20: the skipped row has
been folded into it. -/
theorem skipped_row_in_contents_envelope :
    ConvertGeometryToGPKG twoRowRuntime farMultiPointGeometry =
      .error "unsupported geometry type: MultiPoint" ∧
    CalculateEnvelope twoRowRuntime squareCoords "Polygon" = ⟨F64.zero, f10, F64.zero, f10⟩ ∧
    (ExportData twoRowRuntime (fun _ _ => true)
      [some (rowObject 1 "square"), some (rowObject 2 "multipoint")]).1.count = 1 ∧
    ((ExportData twoRowRuntime (fun _ _ => true)
      [some (rowObject 1 "square"), some (rowObject 2 "multipoint")]).1.table.map
        (fun r => r.obj.Code)) = [1] ∧
    (ExportData twoRowRuntime (fun _ _ => true)
      [some (rowObject 1 "square"), some (rowObject 2 "multipoint")]).2 =
      some ⟨F64.zero, F64.zero, f20, f20⟩ := by
  refine ⟨rfl, squareEnvelope twoRowRuntime "Polygon", ?_, ?_, ?_⟩ <;> decide

/-! ## File names -/

theorem foldl_replaceAll (chars : List Char) :
    ∀ s : List Char,
      chars.foldl replaceAll s = s.map (fun c => if c ∈ chars then underscore else c) := by
  induction chars with
  | nil =>
    intro s
    simp
  | cons ch rest ih =>
    intro s
    simp only [List.foldl_cons, ih, replaceAll, List.map_map]
    apply List.map_congr_left
    intro c _
    by_cases h : c = ch
    · subst h
      simp
    · by_cases h2 : c ∈ rest <;> simp [h, h2]

theorem sanitizeFilename_eq (name : String) :
    sanitizeFilename name =
      if trimSpace (name.data.map sanitizeChar) = [] then "unknown"
      else String.mk (trimSpace (name.data.map sanitizeChar)) := by
  unfold sanitizeFilename
  simp only [foldl_replaceAll]
  rfl

theorem mem_trimSpace (c : Char) (s : List Char) (h : c ∈ trimSpace s) : c ∈ s := by
  unfold trimSpace at h
  have h1 := (List.dropWhile_sublist isSpace).subset (List.mem_reverse.mp h)
  exact (List.dropWhile_sublist isSpace).subset (List.mem_reverse.mp h1)

theorem sanitizeChar_valid (c : Char) : sanitizeChar c ∉ invalidChars := by
  unfold sanitizeChar
  split_ifs with h
  · decide
  · exact h

theorem trimSpace_id (s pre : List Char) (a z : Char) (t : List Char)
    (h1 : s = a :: t) (h2 : s = pre ++ [z]) (ha : isSpace a = false) (hz : isSpace z = false) :
    trimSpace s = s := by
  unfold trimSpace
  have e1 : s.dropWhile isSpace = s := by
    rw [h1]
    simp [List.dropWhile, ha]
  rw [e1]
  have e2 : s.reverse = z :: pre.reverse := by
    rw [h2]
    simp
  rw [e2]
  have e3 : (z :: pre.reverse).dropWhile isSpace = z :: pre.reverse := by
    simp [List.dropWhile, hz]
  rw [e3, ← e2, List.reverse_reverse]

/-- Counterexample to C18 as stated: the empty name becomes `unknown` (7
characters for 0), and a name made of a tab and the letter a becomes `a`. -/
theorem sanitizeFilename_length_counterexample :
    sanitizeFilename "" = "unknown" ∧
    (sanitizeFilename "").length ≠ "".length ∧
    sanitizeFilename (String.mk [Char.ofNat 9, Char.ofNat 97]) = "a" ∧
    (sanitizeFilename (String.mk [Char.ofNat 9, Char.ofNat 97])).length ≠
      (String.mk [Char.ofNat 9, Char.ofNat 97]).length := by
  decide

/-- C18 (amended): `sanitizeFilename(name)` is name with every occurrence of
the ten characters replaced by an underscore and every other character left
unchanged and in place, from which leading and trailing white space is then
trimmed, and `unknown` when nothing is left; the result never contains any of
the ten characters, and it is exactly the replaced name, of the same length,
when the name is not empty and neither begins nor ends with white space other
than the space character. -/
theorem sanitizeFilename_spec (name : String) :
    (sanitizeFilename name =
      if trimSpace (name.data.map sanitizeChar) = [] then "unknown"
      else String.mk (trimSpace (name.data.map sanitizeChar))) ∧
    (∀ c ∈ (sanitizeFilename name).data, c ∉ invalidChars) ∧
    (∀ (a z : Char) (t pre : List Char), name.data = a :: t → name.data = pre ++ [z] →
      isSpace (sanitizeChar a) = false → isSpace (sanitizeChar z) = false →
      (sanitizeFilename name).data = name.data.map sanitizeChar ∧
      (sanitizeFilename name).length = name.length) := by
  refine ⟨sanitizeFilename_eq name, ?_, ?_⟩
  · intro c hc
    rw [sanitizeFilename_eq] at hc
    split_ifs at hc with h
    · revert c
      decide
    · have h1 := mem_trimSpace c _ hc
      obtain ⟨c1, _, rfl⟩ := List.mem_map.mp h1
      exact sanitizeChar_valid c1
  · intro a z t pre h1 h2 ha hz
    have hid : trimSpace (name.data.map sanitizeChar) = name.data.map sanitizeChar :=
      trimSpace_id (name.data.map sanitizeChar) (pre.map sanitizeChar) (sanitizeChar a)
        (sanitizeChar z) (t.map sanitizeChar) (by rw [h1]; rfl) (by rw [h2]; simp) ha hz
    have hne : name.data.map sanitizeChar ≠ [] := by
      rw [h1]
      simp
    have hres : sanitizeFilename name = String.mk (name.data.map sanitizeChar) := by
      rw [sanitizeFilename_eq, hid]
      simp [hne]
    rw [hres]
    refine ⟨rfl, ?_⟩
    show (name.data.map sanitizeChar).length = name.data.length
    exact List.length_map _ _

/-- Witness of C18 (amended) on the name `a b/c`. -/
theorem sanitizeFilename_spec_witness :
    sanitizeFilename "a b/c" = "a_b_c" ∧
    (sanitizeFilename "a b/c").length = "a b/c".length :=
  ⟨by decide,
   ((sanitizeFilename_spec "a b/c").2.2 (Char.ofNat 97) (Char.ofNat 99)
      [Char.ofNat 32, Char.ofNat 98, Char.ofNat 47, Char.ofNat 99]
      [Char.ofNat 97, Char.ofNat 32, Char.ofNat 98, Char.ofNat 47]
      (by decide) (by decide) (by decide) (by decide)).2⟩

/-! ## The two walkers -/

/-- C19 (evaluation of the code): on the Point `["a", 0]` and on the Polygon
without ring `ConvertGeometryToGPKG` returns an error, while
`convertGeometryToWGS84` returns none: it writes the projection of (0, 0) for
the first and an empty list of rings for the second. -/
theorem walkers_disagree :
    ConvertGeometryToGPKG sampleRuntime textPointGeometry =
      .error "invalid x coordinate: cannot convert string to float64" ∧
    convertGeometryToWGS84 sampleRuntime sampleFloatOps (.obj textPointGeometry) =
      (.obj [("type", .str "Point"),
        ("coordinates", .float64s (projectPair sampleFloatOps (F64.zero, F64.zero)))], none) ∧
    ConvertGeometryToGPKG sampleRuntime emptyPolygonGeometry =
      .error "invalid polygon coordinates" ∧
    convertGeometryToWGS84 sampleRuntime sampleFloatOps (.obj emptyPolygonGeometry) =
      (.obj [("type", .str "Polygon"), ("coordinates", .float64sss [])], none) :=
  ⟨rfl, rfl, rfl, rfl⟩

/-- C20: whenever `convertGeometryToWGS84` returns an error, the geometry it
was given is left exactly as it was (so its `coordinates`, `type` and `crs`
are unchanged), also when the error comes after points that were already
converted. -/
theorem convertGeometryToWGS84_atomic (rt : GoRuntime) (fo : FloatOps) (geometry : Value)
    (e : String) (h : (convertGeometryToWGS84 rt fo geometry).2 = some e) :
    (convertGeometryToWGS84 rt fo geometry).1 = geometry := by
  unfold convertGeometryToWGS84 at h ⊢
  split
  · rename_i geom
    simp only at h ⊢
    split
    · rfl
    · rename_i coords hco
      simp only [hco] at h
      split
      · rfl
      · rename_i converted hconv
        simp only [hconv] at h
        cases h
  · rfl

/-- Witness of C20: on the LineString `[[0,0],[10]]` with a `crs` marker the
error comes at the second point, after the first one has been converted, and
the geometry still has its coordinates and its `crs`. -/
theorem convertGeometryToWGS84_atomic_witness :
    (convertGeometryToWGS84 sampleRuntime sampleFloatOps (.obj crsBrokenLine)).2 =
      some "invalid point in linestring" ∧
    (convertGeometryToWGS84 sampleRuntime sampleFloatOps (.obj crsBrokenLine)).1 =
      .obj crsBrokenLine :=
  ⟨rfl, convertGeometryToWGS84_atomic sampleRuntime sampleFloatOps (.obj crsBrokenLine)
    "invalid point in linestring" rfl⟩

/-! ## Projection -/

end GisExporter
